import Mathlib

/-!
Verification of the query-resolution engine of the financial chatbot
(src/app/api/chat/route.ts).  All definitions below are shallow embeddings
of the TypeScript functions of that file: `expandAcronyms`, `toNumber`,
`getProjectMetrics`, `parseDate`, `findClosestMatch`, `levenshteinDistance`,
`getUniqueValues` and `answerQuestion`.  JavaScript strings are modelled as
Lean `String`, JS numbers as `ℚ` (the engine only adds and compares values,
so exact rational arithmetic coincides with the float behaviour on the
inputs considered), `undefined`-able strings as `Option String` with JS
truthiness made explicit.
-/

/-- JS `String.prototype.toLowerCase` (the data is ASCII). -/
def jsToLower (s : String) : String := String.mk (s.toList.map Char.toLower)

/-- Whitespace for the purposes of the `/\s+/` regexes of the source. -/
def isWS (c : Char) : Bool := c = ' ' || c = '\t' || c = '\n' || c = '\r'

/-- Word character for JS regex word boundaries: `[A-Za-z0-9_]`. -/
def isWordChar (c : Char) : Bool := c.isAlphanum || c = '_'

/-- Helper for `splitWS`: JS `str.split(/\s+/)` semantics.  Separators are
maximal whitespace runs; a leading (resp. trailing) run contributes a
leading (resp. trailing) empty piece, and the empty string yields one
empty piece.  The first argument records whether the previous character was
whitespace (so a run of whitespace acts as a single separator). -/
def splitWSAux : Bool → List Char → List Char → List (List Char)
  | _, [], acc => [acc.reverse]
  | inWS, c :: t, acc =>
    if isWS c then
      if inWS then splitWSAux true t acc
      else acc.reverse :: splitWSAux true t []
    else splitWSAux false t (c :: acc)

/-- JS `str.split(/\s+/)` as used throughout the source file. -/
def splitWS (s : String) : List String :=
  (splitWSAux false s.toList []).map String.mk

/-- JS `haystack.includes(needle)` on lists of characters. -/
def listIncludes : List Char → List Char → Bool
  | h, n =>
    if n.isPrefixOf h then true
    else match h with
      | [] => false
      | _ :: t => listIncludes t n

/-- JS `haystack.includes(needle)` for strings. -/
def strIncludes (hay needle : String) : Bool := listIncludes hay.toList needle.toList

/-- JS `Array.from(new Set(l))`: deduplicate keeping the first occurrence of
each element, preserving insertion order. -/
def jsDedupAux {α : Type} [DecidableEq α] (seen : List α) : List α → List α
  | [] => []
  | x :: xs => if x ∈ seen then jsDedupAux seen xs else x :: jsDedupAux (x :: seen) xs

def jsDedup {α : Type} [DecidableEq α] (l : List α) : List α := jsDedupAux [] l

/-- JS `String.prototype.trim` (ASCII whitespace). -/
def jsTrim (s : String) : String :=
  String.mk (((s.toList.dropWhile isWS).reverse.dropWhile isWS).reverse)

/-- Numeric value of a list of decimal digit characters (`parseInt` on an
all-digit string). -/
def natOfDigits (l : List Char) : Nat :=
  l.foldl (fun acc c => 10 * acc + (c.toNat - '0'.toNat)) 0

/-- The acronym table `ACRONYM_MAP` of the source, in declaration order. -/
def ACRONYM_MAP : List (String × String) :=
  [("gp", "gross profit"),
   ("np", "net profit"),
   ("wip", "audit report (wip)"),
   ("subcon", "subcontractor"),
   ("sub", "subcontractor"),
   ("subcontractor", "subcontractor"),
   ("projected", "projection"),
   ("rebar", "reinforcement"),
   ("staff", "manpower (mgt. & supervision)"),
   ("labour", "manpower (labour)"),
   ("labor", "manpower (labour)"),
   ("cashflow", "cash flow"),
   ("cash", "cash flow"),
   ("prelim", "preliminaries"),
   ("preliminary", "preliminaries"),
   ("material", "materials"),
   ("plant", "plant and machinery"),
   ("machinery", "plant and machinery"),
   ("lab", "labour")]

/-- The source `expandAcronyms`: lower-case, split on whitespace, replace
whole words found in `ACRONYM_MAP`, re-join with single spaces. -/
def expandAcronyms (text : String) : String :=
  String.intercalate " "
    ((splitWS (jsToLower text)).map (fun w => (ACRONYM_MAP.lookup w).getD w))

example : expandAcronyms "cashflow" = "cash flow" := by decide
example : expandAcronyms "cash flow" = "cash flow flow" := by decide
example : expandAcronyms "what is the GP" = "what is the gross profit" := by decide

/-! ## Values and records -/

/-- A JS value of type `number | string` (the `Value` column). -/
inductive JsValue : Type
  | num (q : ℚ)
  | str (s : String)
deriving DecidableEq, Repr

/-- Exponent part of a JS float literal: optional sign then digits; an
invalid exponent part is ignored by `parseFloat` (contributes 0). -/
def parseExp (t : List Char) : ℤ :=
  match t with
  | '-' :: r => if (r.takeWhile Char.isDigit) = [] then 0 else -(natOfDigits (r.takeWhile Char.isDigit) : ℤ)
  | '+' :: r => if (r.takeWhile Char.isDigit) = [] then 0 else (natOfDigits (r.takeWhile Char.isDigit) : ℤ)
  | r => if (r.takeWhile Char.isDigit) = [] then 0 else (natOfDigits (r.takeWhile Char.isDigit) : ℤ)

/-- JS `parseFloat`, on decimal notation (sign, digits, fraction, exponent);
`none` models `NaN`.  (Special forms such as `Infinity` do not occur in the
data and are not modelled.) -/
def jsParseFloat (s : String) : Option ℚ :=
  let l := s.toList.dropWhile isWS
  let signAndRest : ℚ × List Char :=
    match l with
    | '-' :: t => (-1, t)
    | '+' :: t => (1, t)
    | _ => (1, l)
  let sign := signAndRest.1
  let l1 := signAndRest.2
  let ip := l1.takeWhile Char.isDigit
  let l2 := l1.dropWhile Char.isDigit
  let fracAndRest : List Char × List Char :=
    match l2 with
    | '.' :: t => (t.takeWhile Char.isDigit, t.dropWhile Char.isDigit)
    | _ => ([], l2)
  let fp := fracAndRest.1
  let l3 := fracAndRest.2
  if ip = [] ∧ fp = [] then none
  else
    let mant : ℚ := (natOfDigits ip : ℚ) + (natOfDigits fp : ℚ) / ((10 : ℚ) ^ fp.length)
    let expv : ℤ :=
      match l3 with
      | 'e' :: t => parseExp t
      | 'E' :: t => parseExp t
      | _ => 0
    some (sign * mant * (10 : ℚ) ^ expv)

/-- The source helper `toNumber`: numbers pass through, strings go through
`parseFloat(val) || 0` (so `NaN` becomes 0). -/
def toNumber (val : JsValue) : ℚ :=
  match val with
  | .num q => q
  | .str s =>
    match jsParseFloat s with
    | some q => q
    | none => 0

/-- `String(row.Value)` for the General-info rows (whose values are strings
in the data; the numeric case renders the rational plainly). -/
def jsValToString (val : JsValue) : String :=
  match val with
  | .str s => s
  | .num q => toString q

/-- The `FinancialRow` interface of the source. -/
structure FinancialRow : Type where
  Year : String
  Month : String
  Sheet_Name : String
  Financial_Type : String
  Data_Type : String
  Item_Code : String
  Value : JsValue
  projectLabel : Option String   -- the `_project?` field
deriving DecidableEq, Repr

/-- Sum of `toNumber` over a list of rows:
`rows.reduce((sum, d) => sum + toNumber(d.Value), 0)`. -/
def sumVals (l : List FinancialRow) : ℚ :=
  l.foldl (fun s d => s + toNumber d.Value) 0

/-- The `gpFilter` of `getProjectMetrics`: item code exactly `"3"` and
data-type text containing `"gross profit"` (case-insensitive). -/
def gpFilter (d : FinancialRow) : Bool :=
  d.Item_Code = "3" && strIncludes (jsToLower d.Data_Type) "gross profit"

/-- `data.filter(d => d._project === project)`. -/
def projectDataOf (data : List FinancialRow) (project : String) : List FinancialRow :=
  data.filter (fun d => d.projectLabel = some project)

/-- Rows summed into `'Business Plan GP'`. -/
def bpPred (d : FinancialRow) : Bool :=
  d.Sheet_Name = "Financial Status" &&
    strIncludes (jsToLower d.Financial_Type) "business plan" && gpFilter d

/-- Rows summed into `'Projected GP'`. -/
def projPred (d : FinancialRow) : Bool :=
  d.Sheet_Name = "Financial Status" &&
    strIncludes (jsToLower d.Financial_Type) "projection" && gpFilter d

/-- Rows summed into `'WIP GP'`. -/
def wipPred (d : FinancialRow) : Bool :=
  d.Sheet_Name = "Financial Status" &&
    strIncludes (jsToLower d.Financial_Type) "audit report" && gpFilter d

/-- Rows summed into `'Cash Flow'`. -/
def cfPred (d : FinancialRow) : Bool :=
  d.Sheet_Name = "Financial Status" &&
    strIncludes (jsToLower d.Financial_Type) "cash flow" && gpFilter d

/-- Result of `getProjectMetrics`; field names follow the string keys of
the source object (`'Business Plan GP'`, ..., `'Target Completed (%)'`). -/
structure ProjectMetrics : Type where
  businessPlanGP : ℚ
  projectedGP : ℚ
  wipGP : ℚ
  cashFlow : ℚ
  startDate : String
  completeDate : String
  targetCompleteDate : String
  timeConsumedPct : String
  targetCompletedPct : String
deriving DecidableEq, Repr

/-- `getProjectInfoValue` of the source: look up the General-info row with
the given data type; empty or literal `'Nil'` values become `'N/A'`. -/
def getProjectInfoValue (projectInfo : List FinancialRow) (dataType : String) : String :=
  let val : String :=
    match projectInfo.find? (fun d => d.Data_Type = dataType) with
    | some row => jsValToString row.Value
    | none => ""
  if val != "" && val != "Nil" then val else "N/A"

/-- The source `getProjectMetrics`. -/
def getProjectMetrics (data : List FinancialRow) (project : String) : ProjectMetrics :=
  let projectData := projectDataOf data project
  if projectData = [] then
    { businessPlanGP := 0, projectedGP := 0, wipGP := 0, cashFlow := 0,
      startDate := "N/A", completeDate := "N/A", targetCompleteDate := "N/A",
      timeConsumedPct := "N/A", targetCompletedPct := "N/A" }
  else
    let bp := sumVals (projectData.filter bpPred)
    let proj := sumVals (projectData.filter projPred)
    let wip := sumVals (projectData.filter wipPred)
    let cf := sumVals (projectData.filter cfPred)
    let projectInfo := projectData.filter (fun d => d.Financial_Type = "General")
    { businessPlanGP := bp, projectedGP := proj, wipGP := wip, cashFlow := cf,
      startDate := getProjectInfoValue projectInfo "Start Date",
      completeDate := getProjectInfoValue projectInfo "Complete Date",
      targetCompleteDate := getProjectInfoValue projectInfo "Target Complete Date",
      timeConsumedPct := getProjectInfoValue projectInfo "Time Consumed (%)",
      targetCompletedPct := getProjectInfoValue projectInfo "Target Completed (%)" }

/-- The single record of the concrete metrics scenario of the spec. -/
def bpRow : FinancialRow :=
  { Year := "2025", Month := "3", Sheet_Name := "Financial Status",
    Financial_Type := "Business Plan", Data_Type := "Gross Profit",
    Item_Code := "3", Value := .num 100, projectLabel := some "P" }

example : (getProjectMetrics [bpRow] "P").businessPlanGP = 100 := by
  have h : (getProjectMetrics [bpRow] "P").businessPlanGP = sumVals [bpRow] := rfl
  rw [h]
  norm_num [sumVals, toNumber, bpRow]

example : (getProjectMetrics [bpRow] "P").projectedGP = 0 := by
  have h : (getProjectMetrics [bpRow] "P").projectedGP = sumVals [] := rfl
  rw [h]; norm_num [sumVals]

/-! ## Date extraction (`parseDate`) -/

/-- The result of `parseDate` (fields `month`/`year` of the source
`ParsedQuery` interface; the remaining fields are never set by it). -/
structure ParsedQuery : Type where
  month : Option String
  year : Option String
deriving DecidableEq, Repr

/-- JS truthiness of a `string | undefined` value. -/
def jsTruthyS (o : Option String) : Bool :=
  match o with
  | none => false
  | some s => s != ""

/-- JS regex word boundary on the left of a position whose character is a
word character: the previous character (if any) must not be one. -/
def boundaryBefore (prev : Option Char) : Bool :=
  match prev with
  | none => true
  | some c => !isWordChar c

/-- Word boundary on the right of a digit: list is exhausted or the next
character is not a word character. -/
def boundaryAfter (l : List Char) : Bool :=
  match l with
  | [] => true
  | c :: _ => !isWordChar c

/-- First match of `/\b(20[2-4]\d)\b/` (the 4-digit-year regex), scanning
left to right with the previous character tracked for the boundary. -/
def find4Year (prev : Option Char) : List Char → Option String
  | [] => none
  | c1 :: rest =>
    match rest with
    | c2 :: c3 :: c4 :: rest2 =>
      if boundaryBefore prev && c1 = '2' && c2 = '0' &&
          (c3 = '2' || c3 = '3' || c3 = '4') && c4.isDigit && boundaryAfter rest2 then
        some (String.mk [c1, c2, c3, c4])
      else find4Year (some c1) rest
    | _ => find4Year (some c1) rest

/-- Attempt to match `(\d{1,2})\/(\d{2})\b` exactly at the head of the
list, greedy in the month digits (two before one). -/
def mmyyAt (l : List Char) : Option (List Char × List Char) :=
  (match l with
   | a :: b :: s :: y1 :: y2 :: r =>
     if a.isDigit && b.isDigit && s = '/' && y1.isDigit && y2.isDigit && boundaryAfter r then
       some ([a, b], [y1, y2])
     else none
   | _ => none).orElse (fun _ =>
    match l with
    | a :: s :: y1 :: y2 :: r =>
      if a.isDigit && s = '/' && y1.isDigit && y2.isDigit && boundaryAfter r then
        some ([a], [y1, y2])
      else none
    | _ => none)

/-- First match of `/(\d{1,2})\/(\d{2})\b/`, scanning left to right. -/
def findMMYY : List Char → Option (List Char × List Char)
  | [] => none
  | c :: rest =>
    match mmyyAt (c :: rest) with
    | some m => some m
    | none => findMMYY rest

/-- Whether `.*\d{4}` can match in `l` (the body of the negative lookahead
of the 2-digit-year regex): a run of four digits reachable without
crossing a line terminator. -/
def hasFourDigitRun : List Char → Bool
  | [] => false
  | c :: t =>
    (match c :: t with
     | d1 :: d2 :: d3 :: d4 :: _ =>
       d1.isDigit && d2.isDigit && d3.isDigit && d4.isDigit
     | _ => false) ||
    (!(c = '\n' || c = '\r') && hasFourDigitRun t)

/-- First match of `/\b(\d{2})\b(?!.*\d{4})/`. -/
def find2Year (prev : Option Char) : List Char → Option String
  | [] => none
  | c1 :: rest =>
    match rest with
    | c2 :: rest2 =>
      if boundaryBefore prev && c1.isDigit && c2.isDigit && boundaryAfter rest2 &&
          !hasFourDigitRun rest2 then
        some (String.mk [c1, c2])
      else find2Year (some c1) rest
    | _ => find2Year (some c1) rest

def monthNames : List String :=
  ["january", "february", "march", "april", "may", "june",
   "july", "august", "september", "october", "november", "december"]

def monthAbbr : List String :=
  ["jan", "feb", "mar", "apr", "may", "jun", "jul", "aug", "sep", "oct", "nov", "dec"]

/-- Whether month `i` (0-based) occurs in the lower-cased question, by full
name or 3-letter abbreviation, as a plain substring. -/
def monthHit (lq : List Char) (i : Nat) : Bool :=
  listIncludes lq (monthNames.getD i "").toList || listIncludes lq (monthAbbr.getD i "").toList

/-- The month-name loop of `parseDate`: first `i` in calendar order
(0 = january) whose name or abbreviation occurs in the text. -/
def monthScan (lq : List Char) : Option Nat :=
  (List.range 12).find? (fun i => monthHit lq i)

/-- The source `parseDate`. -/
def parseDate (question : String) (defaultMonth : String) : ParsedQuery :=
  let lq := (jsToLower question).toList
  let yearM := find4Year none lq
  let r1 : ParsedQuery := { month := none, year := yearM }
  -- "M/YY" handling, only when no 4-digit year matched
  let r2 :=
    match findMMYY lq, yearM with
    | some (mC, yC), none =>
      let m := natOfDigits mC
      if 1 ≤ m ∧ m ≤ 12 then
        { r1 with month := some (toString m), year := some ("20" ++ String.mk yC) }
      else r1
    | _, _ => r1
  -- bare 2-digit year, only if neither of the above found a year
  let r3 :=
    match find2Year none lq, yearM, r2.year with
    | some yS, none, none =>
      let y := natOfDigits yS.toList
      if 20 ≤ y ∧ y ≤ 30 then { r2 with year := some ("20" ++ yS) } else r2
    | _, _, _ => r2
  -- month name or abbreviation, in calendar order
  let r4 :=
    match monthScan lq with
    | some i =>
      let mn := toString (i + 1)
      if mn.length = 1 ∨ (mn.length = 2 ∧ mn ≠ "20" ∧ mn ≠ "21" ∧ mn ≠ "22" ∧ mn ≠ "23") then
        { r3 with month := some mn }
      else r3
    | none => r3
  -- default month fallback: `if (!result.month)`
  if jsTruthyS r4.month then r4 else { r4 with month := some defaultMonth }

example : parseDate "march 2025" "6" = { month := some "3", year := some "2025" } := by decide
example : parseDate "2/25" "6" = { month := some "2", year := some "2025" } := by decide
example : parseDate "december january" "6" = { month := some "1", year := none } := by decide
example : parseDate "what is the gp" "6" = { month := some "6", year := none } := by decide
example : parseDate "feb 25" "6" = { month := some "2", year := some "2025" } := by decide

/-! ## Fuzzy matching (`levenshteinDistance`, `findClosestMatch`) -/

/-- One inner step of the Levenshtein matrix: given the tail of `a` still
to process, the previous row starting at the diagonal cell, and the cell
to the left, produce the rest of the current row.  Mirrors the
`matrix[i][j]` recurrence of the source. -/
def levRowAux (y : Char) : List Char → List Nat → Nat → List Nat
  | [], _, _ => []
  | x :: xs, prev, left =>
    match prev with
    | diag :: rest =>
      let up := rest.headD 0
      let cell := if x = y then diag else 1 + min diag (min left up)
      cell :: levRowAux y xs rest cell
    | [] => []

/-- The source `levenshteinDistance` (classic DP matrix, cost 1 for
insert/delete/substitute), built row by row. -/
def levenshteinDistance (a b : String) : Nat :=
  let as := a.toList
  let row0 : List Nat := List.range (as.length + 1)
  let final := b.toList.foldl
    (fun (st : List Nat × Nat) y =>
      let i := st.2 + 1
      (i :: levRowAux y as st.1 i, i))
    (row0, 0)
  (final.1).getLastD 0

example : levenshteinDistance "abcd" "abce" = 1 := by decide
example : levenshteinDistance "kitten" "sitting" = 3 := by decide
example : levenshteinDistance "" "abc" = 3 := by decide

/-- `|m - n|` on naturals (JS `Math.abs` of a length difference). -/
def absDiff (m n : Nat) : Nat := max m n - min m n

/-- The word-level test of `findClosestMatch`: the normalized input equals
some word of the normalized candidate, or is a substring of that word
covering at least 50% of its length. -/
def isWordLevelMatch (ninput ncand : String) : Bool :=
  (splitWS ncand).any (fun word =>
    word == ninput ||
    (strIncludes word ninput && decide (word.length ≤ 2 * ninput.length)))

/-- Distinct non-space characters of a string (the `inputChars` /
`candChars` objects of the source). -/
def distinctChars (s : String) : List Char :=
  jsDedup (s.toList.filter (fun c => c != ' '))

/-- The character-overlap gate of `findClosestMatch`: shared distinct
characters over the union must be at least 0.6. -/
def charSimilarityOK (ninput ncand : String) : Bool :=
  let si := distinctChars ninput
  let sc := distinctChars ncand
  let shared := (si.filter (fun ch => ch ∈ sc)).length
  let total := si.length + sc.length - shared
  decide (0 < total) && decide (3 * total ≤ 5 * shared)

/-- `if (distance < bestDistance) { bestDistance = distance; bestMatch = candidate }`
(`none` is the initial `Infinity` state, beaten by any distance). -/
def fcmUpdate (best : Option (String × Nat)) (c : String) (d : Nat) :
    Option (String × Nat) :=
  match best with
  | some (m, bd) => if d < bd then some (c, d) else some (m, bd)
  | none => some (c, d)

/-- The candidate loop of `findClosestMatch`, threading the best match and
its distance (`none` models the initial `Infinity`).  An exact
case-insensitive match returns immediately; a word-level match competes
with the length difference as distance; otherwise a candidate passing the
similarity gate competes with its Levenshtein distance.  At the end, the
best match is returned only if its distance is at most half the input
length. -/
def fcmGo (ninput : String) : List String → Option (String × Nat) → Option String
  | [], best =>
    match best with
    | some (m, d) => if 2 * d ≤ ninput.length then some m else none
    | none => none
  | c :: cs, best =>
    let nc := jsTrim (jsToLower c)
    if ninput == nc then some c
    else
      let best2 :=
        if isWordLevelMatch ninput nc then
          fcmUpdate best c (absDiff nc.length ninput.length)
        else if charSimilarityOK ninput nc then
          fcmUpdate best c (levenshteinDistance ninput nc)
        else best
      fcmGo ninput cs best2

/-- The source `findClosestMatch`. -/
def findClosestMatch (input : String) (candidates : List String) : Option String :=
  if input == "" || candidates.isEmpty then none
  else fcmGo (jsTrim (jsToLower input)) candidates none

example : findClosestMatch "ABC" ["xyz", "abc"] = some "abc" := by decide
example : findClosestMatch "abc" ["abcdef"] = none := by decide
example : findClosestMatch "abcd" ["abcdmnop", "abce"] = some "abce" := by decide
example : isWordLevelMatch "abc" (jsTrim (jsToLower "abcdef")) = true := by decide
example : isWordLevelMatch "abcd" (jsTrim (jsToLower "abcdmnop")) = true := by decide

/-! ## answerQuestion: attribute inference -/

/-- The source `getUniqueValues`: distinct non-empty values of a column
over the project rows, in first-occurrence order. -/
def getUniqueValues (data : List FinancialRow) (project : String)
    (f : FinancialRow → String) : List String :=
  jsDedup (((data.filter (fun d => d.projectLabel = some project)).map f).filter
    (fun v => v != ""))

/-- `userSpecifiedYear || userSpecifiedMonth` of the source: the parsed
year is truthy and differs from the current calendar year, or the parsed
month is truthy and differs from the caller's default month. -/
def hasUserDate (p : ParsedQuery) (defaultMonth : String) (currentYear : Nat) : Bool :=
  (match p.year with
   | none => false
   | some y => y != "" && y != toString currentYear) ||
  (match p.month with
   | none => false
   | some m => m != "" && m != defaultMonth)

/-- The literal sheet-mention test of Step 2: the expanded question
contains the sheet name with all whitespace removed, or its first
space-separated piece. -/
def sheetNameHit (eq : String) (sheet : String) : Bool :=
  let sheetLower := jsToLower sheet
  strIncludes eq (String.mk (sheetLower.toList.filter (fun c => !isWS c))) ||
  strIncludes eq (String.mk (sheetLower.toList.takeWhile (fun c => c != ' ')))

/-- Matching of a whole keyword phrase at the head of the text: words of
the phrase separated by at least one whitespace character, with a word
boundary after the last word (the compiled `\bkw1\s+kw2\b` regex). -/
def phraseAt : List (List Char) → List Char → Bool
  | [], _ => true
  | [w], l => w.isPrefixOf l && boundaryAfter (l.drop w.length)
  | w :: ws, l =>
    w.isPrefixOf l &&
    (match l.drop w.length with
     | c :: rest => isWS c && phraseAt ws ((c :: rest).dropWhile isWS)
     | [] => false)

/-- Scan for the phrase anywhere in the text, requiring a word boundary
before the first word. -/
def phraseScan (phrase : List (List Char)) (prev : Option Char) : List Char → Bool
  | [] => false
  | c :: rest =>
    (boundaryBefore prev && phraseAt phrase (c :: rest)) || phraseScan phrase (some c) rest

/-- The keyword regex of Step 2:
`new RegExp('\\b' + keyword.replace(/\s+/g, '\\s+') + '\\b', 'i')`. -/
def keywordRegexTest (kw : String) (text : String) : Bool :=
  phraseScan ((splitWS kw).map String.toList) none text.toList

/-- The `sheetKeywords` table of the source, in declaration order. -/
def sheetKeywords : List (String × String) :=
  [("cashflow", "Cash Flow"), ("cash flow", "Cash Flow"), ("projection", "Projection"),
   ("committed", "Committed Cost"), ("accrual", "Accrual"),
   ("financial status", "Financial Status"), ("financial", "Financial Status")]

/-- Step 2 of `answerQuestion`: the target sheet.  Without a user date the
sheet is `'Financial Status'` and no detection runs; with one, first
literal sheet mentions, then the keyword table (verified against the
sheets present in the data). -/
def inferSheet (sheets : List String) (expandedQuestion : String) (hUD : Bool) :
    Option String :=
  if !hUD then some "Financial Status"
  else
    match sheets.find? (fun sheet => sheetNameHit expandedQuestion sheet) with
    | some s => some s
    | none =>
      sheetKeywords.findSome? (fun p =>
        if keywordRegexTest p.1 expandedQuestion then
          sheets.find? (fun s =>
            s != "" && jsTrim s != "" && jsToLower (jsTrim s) == jsToLower p.2)
        else none)

/-- The word-level financial-type test of Step 4: some question word
equals a word of the type, or is a substring of one covering at least half
its length. -/
def ftWordHit (qWords : List String) (ft : String) : Bool :=
  let ftWords := (splitWS (jsToLower ft)).filter (fun w => decide (0 < w.length))
  qWords.any (fun q => ftWords.any (fun fw =>
    q == fw || (strIncludes fw q && decide (fw.length ≤ 2 * q.length))))

/-- Step 4 of `answerQuestion`: first financial type matching at word
level (dataset order), else the first fuzzy match over question words. -/
def inferFinType (financialTypes : List String) (qWords : List String) : Option String :=
  match financialTypes.find? (fun ft => ftWordHit qWords ft) with
  | some ft => some ft
  | none => qWords.findSome? (fun w => findClosestMatch w financialTypes)

/-- The `acronymMap` of Step 5, in declaration order. -/
def dtAcronymMap : List (String × List String) :=
  [("np", ["net profit", "acc. net profit"]),
   ("gp", ["gross profit", "acc. gross profit"]),
   ("wip", ["work in progress"]),
   ("cf", ["cash flow"])]

/-- Acronym stage of Step 5: for the first acronym present among the
question words, the first data type containing one of its expansions. -/
def dtAcronymLookup (dataTypes : List String) (qWords : List String) : Option String :=
  dtAcronymMap.findSome? (fun p =>
    if qWords.contains p.1 then
      p.2.findSome? (fun e => dataTypes.find? (fun dt => strIncludes (jsToLower dt) e))
    else none)

/-- Counting stage of Step 5 for one data type: exact word matches (each
question-word occurrence once), then 50%-containment matches for words of
length > 3 not already matched. -/
def dtCount (qWords : List String) (dt : String) : Nat :=
  let dtWords := (splitWS (jsToLower dt)).filter (fun w => decide (0 < w.length))
  let st1 := qWords.foldl
    (fun (st : Nat × List String) q =>
      if dtWords.contains q then (st.1 + 1, st.2 ++ [q]) else st)
    (0, [])
  let st2 := qWords.foldl
    (fun (st : Nat × List String) q =>
      if st.2.contains q then st
      else if q.length ≤ 3 then st
      else if dtWords.any (fun dw =>
          let longCh := if dw.length ≤ q.length then q else dw
          let shortCh := if dw.length ≤ q.length then dw else q
          strIncludes longCh shortCh && decide (longCh.length ≤ 2 * shortCh.length))
      then (st.1 + 1, st.2 ++ [q])
      else st)
    st1
  st2.1

/-- Best-count stage of Step 5: highest strictly positive count wins, ties
keep the first data type encountered. -/
def dtBest (dataTypes : List String) (qWords : List String) : Option String :=
  (dataTypes.foldl
    (fun (st : Option String × Nat) dt =>
      let c := dtCount qWords dt
      if st.2 < c then (some dt, c) else st)
    (none, 0)).1

/-- Step 5 of `answerQuestion`: acronym table, then word-match counting,
then fuzzy matching. -/
def inferDataType (dataTypes : List String) (qWords : List String) : Option String :=
  match dtAcronymLookup dataTypes qWords with
  | some dt => some dt
  | none =>
    match dtBest dataTypes qWords with
    | some dt => some dt
    | none => qWords.findSome? (fun w => findClosestMatch w dataTypes)

/-! ## answerQuestion: filtering, scoring, result -/

/-- A ranked candidate (the objects of `FuzzyResult.candidates`). -/
structure Candidate : Type where
  id : Nat
  value : JsValue
  score : Nat
  sheet : String
  financialType : String
  dataType : String
  itemCode : String
  month : String
  year : String
  matchedKeywords : List String
deriving DecidableEq, Repr

/-- JS `x || dflt` for a `string | undefined` value. -/
def jsOrS (o : Option String) (dflt : String) : String :=
  match o with
  | some s => if s != "" then s else dflt
  | none => dflt

/-- One conditional equality filter:
`if (v) filtered = filtered.filter(d => f(d) === v)`. -/
def applyFilter (rows : List FinancialRow) (v : Option String)
    (f : FinancialRow → String) : List FinancialRow :=
  if jsTruthyS v then rows.filter (fun d => f d == v.getD "") else rows

/-- All five filters of `answerQuestion` (sheet, month, year,
financial type, data type), in source order. -/
def applyF5 (pd : List FinancialRow) (ts : Option String) (parsed : ParsedQuery)
    (tFT tDT : Option String) : List FinancialRow :=
  applyFilter (applyFilter (applyFilter (applyFilter (applyFilter pd ts (·.Sheet_Name))
    parsed.month (·.Month)) parsed.year (·.Year)) tFT (·.Financial_Type)) tDT (·.Data_Type)

/-- First relaxation: the same filters without the financial type. -/
def applyF4 (pd : List FinancialRow) (ts : Option String) (parsed : ParsedQuery)
    (tDT : Option String) : List FinancialRow :=
  applyFilter (applyFilter (applyFilter (applyFilter pd ts (·.Sheet_Name))
    parsed.month (·.Month)) parsed.year (·.Year)) tDT (·.Data_Type)

/-- Second relaxation: sheet, month and year only. -/
def applyF3 (pd : List FinancialRow) (ts : Option String) (parsed : ParsedQuery) :
    List FinancialRow :=
  applyFilter (applyFilter (applyFilter pd ts (·.Sheet_Name))
    parsed.month (·.Month)) parsed.year (·.Year)

/-- The per-question-word scoring loop of the candidate scorer: +5 for a
financial-type substring hit, +8 data type, +3 item code, +2 sheet name,
pushing the word once per hit, in source order. -/
def scanWords (d : FinancialRow) : List String → Nat × List String
  | [] => (0, [])
  | q :: qs =>
    let inc : Nat :=
      (if strIncludes (jsToLower d.Financial_Type) q then 5 else 0) +
      ((if strIncludes (jsToLower d.Data_Type) q then 8 else 0) +
       ((if strIncludes (jsToLower d.Item_Code) q then 3 else 0) +
        (if strIncludes (jsToLower d.Sheet_Name) q then 2 else 0)))
    let pushes : List String :=
      (if strIncludes (jsToLower d.Financial_Type) q then [q] else []) ++
      ((if strIncludes (jsToLower d.Data_Type) q then [q] else []) ++
       ((if strIncludes (jsToLower d.Item_Code) q then [q] else []) ++
        (if strIncludes (jsToLower d.Sheet_Name) q then [q] else [])))
    let rest := scanWords d qs
    (inc + rest.1, pushes ++ rest.2)

/-- The inferred financial-type bonus: +40 on exact equality (no keyword),
+30 with the type pushed as keyword on case-insensitive containment. -/
def ftBonus (tFT : Option String) (d : FinancialRow) : Nat × List String :=
  if jsTruthyS tFT then
    if d.Financial_Type == tFT.getD "" then (40, [])
    else if strIncludes (jsToLower d.Financial_Type) (jsToLower (tFT.getD "")) then
      (30, [tFT.getD ""])
    else (0, [])
  else (0, [])

/-- The inferred data-type bonus: +35 exact (no keyword), +25 containment
with the type pushed as keyword. -/
def dtBonus (tDT : Option String) (d : FinancialRow) : Nat × List String :=
  if jsTruthyS tDT then
    if d.Data_Type == tDT.getD "" then (35, [])
    else if strIncludes (jsToLower d.Data_Type) (jsToLower (tDT.getD "")) then
      (25, [tDT.getD ""])
    else (0, [])
  else (0, [])

/-- Scoring of one record by the candidate scorer, including the month
(+20), year (+15), common-item-code (+5) and Financial-Status (+2)
bonuses, none of which push keywords; the keyword list is deduplicated at
the end (`Array.from(new Set(...))`). -/
def mkCandidate (qWords : List String) (tFT tDT : Option String) (parsed : ParsedQuery)
    (d : FinancialRow) : Candidate :=
  let sw := scanWords d qWords
  let fb := ftBonus tFT d
  let db := dtBonus tDT d
  let monthB : Nat := if jsTruthyS parsed.month && d.Month == parsed.month.getD "" then 20 else 0
  let yearB : Nat := if jsTruthyS parsed.year && d.Year == parsed.year.getD "" then 15 else 0
  let itemB : Nat := if d.Item_Code == "3" || d.Item_Code == "1" || d.Item_Code == "2" then 5 else 0
  let fsB : Nat := if d.Sheet_Name == "Financial Status" then 2 else 0
  { id := 0, value := d.Value,
    score := sw.1 + fb.1 + db.1 + monthB + yearB + itemB + fsB,
    sheet := d.Sheet_Name, financialType := d.Financial_Type, dataType := d.Data_Type,
    itemCode := d.Item_Code, month := d.Month, year := d.Year,
    matchedKeywords := jsDedup (sw.2 ++ fb.2 ++ db.2) }

/-- Stable insertion for the descending-by-score sort: a new element goes
after every element of not-smaller score (JS `Array.prototype.sort` with
comparator `(a, b) => b.score - a.score` is stable). -/
def insertDesc (a : Candidate) : List Candidate → List Candidate
  | [] => [a]
  | b :: bs => if a.score ≤ b.score then b :: insertDesc a bs else a :: b :: bs

/-- The stable descending sort: elements inserted in original order. -/
def sortDesc (l : List Candidate) : List Candidate :=
  l.foldl (fun acc a => insertDesc a acc) []

/-- Reassignment of sequential 1-based display ids after sorting. -/
def assignIds : List Candidate → Nat → List Candidate
  | [], _ => []
  | c :: cs, i => { c with id := i } :: assignIds cs (i + 1)

/-- The candidate scorer: score all project rows, sort stably by
descending score, keep the first 10, reassign ids 1.. . -/
def rankCandidates (projectData : List FinancialRow) (qWords : List String)
    (tFT tDT : Option String) (parsed : ParsedQuery) : List Candidate :=
  assignIds ((sortDesc (projectData.map (mkCandidate qWords tFT tDT parsed))).take 10) 1

/-- The `text` component of a `FuzzyResult`, kept structured: the fixed
no-project-data message, the no-match diagnostic (with the attempted
filters, rendered under JS truthiness), or the report of a non-empty
result (the inputs of the `Filters:`/`Total`/`By Item Code` template in
source order: applied sheet, financial-type line, month line, year line,
data-type line, total, item-code groups). -/
inductive AnswerText : Type
  | fixedMsg (s : String)
  | noMatchMsg (appliedSheet month year finType dataType : Option String)
  | report (appliedSheet : Option String) (finType : Option String)
      (monthLine yearLine dataTypeLine : String) (total : ℚ)
      (itemGroups : List (String × List FinancialRow))
deriving DecidableEq, Repr

/-- The `FuzzyResult` interface of the source. -/
structure FuzzyResult : Type where
  text : AnswerText
  candidates : List Candidate
deriving DecidableEq, Repr

/-- Append a row to the group of its key, preserving insertion order of
keys (JS `Map` iteration order). -/
def groupPush (acc : List (String × List FinancialRow)) (key : String)
    (d : FinancialRow) : List (String × List FinancialRow) :=
  match acc with
  | [] => [(key, [d])]
  | (k, rows) :: rest =>
    if k == key then (k, rows ++ [d]) :: rest else (k, rows) :: groupPush rest key d

/-- The `itemGroups` map of the source (`d.Item_Code || 'Unknown'`). -/
def groupByItemCode (rows : List FinancialRow) : List (String × List FinancialRow) :=
  rows.foldl (fun acc d => groupPush acc (if d.Item_Code != "" then d.Item_Code else "Unknown") d) []

/-! ## answerQuestion: assembled pipeline -/

/-- `expandAcronyms(question).toLowerCase()`. -/
def expandedQ (question : String) : String := jsToLower (expandAcronyms question)

/-- The question words (all non-empty whitespace-separated tokens of the
expanded question). -/
def qWordsOf (question : String) : List String :=
  (splitWS (expandedQ question)).filter (fun w => decide (0 < w.length))

def parsedOf (question defaultMonth : String) : ParsedQuery :=
  parseDate (expandedQ question) defaultMonth

def sheetsOf (data : List FinancialRow) (project : String) : List String :=
  getUniqueValues data project (·.Sheet_Name)

def finTypesOf (data : List FinancialRow) (project : String) : List String :=
  getUniqueValues data project (·.Financial_Type)

def dataTypesOf (data : List FinancialRow) (project : String) : List String :=
  getUniqueValues data project (·.Data_Type)

/-- Whether the user supplied a date, as detected by the source (the
current calendar year `new Date().getFullYear()` is a parameter of the
embedding). -/
def hasUserDateOf (question defaultMonth : String) (currentYear : Nat) : Bool :=
  hasUserDate (parsedOf question defaultMonth) defaultMonth currentYear

def targetSheetOf (data : List FinancialRow) (project question defaultMonth : String)
    (currentYear : Nat) : Option String :=
  inferSheet (sheetsOf data project) (expandedQ question)
    (hasUserDateOf question defaultMonth currentYear)

def targetFinTypeOf (data : List FinancialRow) (project question : String) : Option String :=
  inferFinType (finTypesOf data project) (qWordsOf question)

def targetDataTypeOf (data : List FinancialRow) (project question : String) : Option String :=
  inferDataType (dataTypesOf data project) (qWordsOf question)

/-- The result of applying all five inferred filters. -/
def fullFilteredOf (data : List FinancialRow) (project question defaultMonth : String)
    (currentYear : Nat) : List FinancialRow :=
  applyF5 (projectDataOf data project)
    (targetSheetOf data project question defaultMonth currentYear)
    (parsedOf question defaultMonth)
    (targetFinTypeOf data project question)
    (targetDataTypeOf data project question)

/-- The result of the first relaxation (financial-type filter dropped). -/
def relax1Of (data : List FinancialRow) (project question defaultMonth : String)
    (currentYear : Nat) : List FinancialRow :=
  applyF4 (projectDataOf data project)
    (targetSheetOf data project question defaultMonth currentYear)
    (parsedOf question defaultMonth)
    (targetDataTypeOf data project question)

/-- The result of the second relaxation (data-type filter also dropped). -/
def relax2Of (data : List FinancialRow) (project question defaultMonth : String)
    (currentYear : Nat) : List FinancialRow :=
  applyF3 (projectDataOf data project)
    (targetSheetOf data project question defaultMonth currentYear)
    (parsedOf question defaultMonth)

/-- The success response: the filter report over the returned records plus
the ranked candidates (which are computed from all project rows,
independently of the filters). -/
def reportResult (data : List FinancialRow) (project question defaultMonth : String)
    (currentYear : Nat) (filtered : List FinancialRow) (appliedSheet : Option String) :
    FuzzyResult :=
  let parsed := parsedOf question defaultMonth
  let hUD := hasUserDateOf question defaultMonth currentYear
  let tFT := targetFinTypeOf data project question
  let tDT := targetDataTypeOf data project question
  { text := .report appliedSheet tFT
      (if hUD && jsTruthyS parsed.month then parsed.month.getD "" else "All")
      (if hUD && jsTruthyS parsed.year then parsed.year.getD "" else "All")
      (jsOrS tDT "All")
      (sumVals filtered)
      (groupByItemCode filtered),
    candidates := rankCandidates (projectDataOf data project) (qWordsOf question)
      tFT tDT parsed }

/-- The source `answerQuestion` (with the wall-clock year an explicit
parameter).  The progressive relaxation (`if (filtered.length === 0)`
twice, with `appliedSheet = targetSheet || 'Financial Status'` set on each
relaxation) is written as a three-way fallback chain over the three filter
sets, which computes the same `filtered`/`appliedSheet` pair as the
sequential reassignments of the source. -/
def answerQuestion (data : List FinancialRow) (project question defaultMonth : String)
    (currentYear : Nat) : FuzzyResult :=
  if (projectDataOf data project).isEmpty then
    { text := .fixedMsg "No data found for this project.", candidates := [] }
  else
    let parsed := parsedOf question defaultMonth
    let targetSheet := targetSheetOf data project question defaultMonth currentYear
    let f1 := fullFilteredOf data project question defaultMonth currentYear
    if !f1.isEmpty then
      reportResult data project question defaultMonth currentYear f1 targetSheet
    else
      let r1 := relax1Of data project question defaultMonth currentYear
      if !r1.isEmpty then
        reportResult data project question defaultMonth currentYear r1
          (some (jsOrS targetSheet "Financial Status"))
      else
        let r2 := relax2Of data project question defaultMonth currentYear
        if !r2.isEmpty then
          reportResult data project question defaultMonth currentYear r2
            (some (jsOrS targetSheet "Financial Status"))
        else
          { text := .noMatchMsg (some (jsOrS targetSheet "Financial Status"))
              parsed.month parsed.year
              (targetFinTypeOf data project question)
              (targetDataTypeOf data project question),
            candidates := [] }

/-- Financial-type line of the filter report (`none` when the result is
not a report or the line is absent). -/
def reportFinTypeLine : AnswerText → Option String
  | .report _ ft _ _ _ _ _ => ft
  | _ => none

/-- Applied-sheet line of the filter report. -/
def reportSheetLine : AnswerText → Option String
  | .report s _ _ _ _ _ _ => s
  | _ => none

/-- The records shown by the `By Item Code` breakdown of a report. -/
def reportRows : AnswerText → List FinancialRow
  | .report _ _ _ _ _ _ groups => (groups.map Prod.snd).flatten
  | _ => []

/-- Concrete rows used to exercise the relaxation bookkeeping. -/
def rowBP : FinancialRow :=
  { Year := "2025", Month := "3", Sheet_Name := "Financial Status",
    Financial_Type := "Business Plan", Data_Type := "Gross Profit",
    Item_Code := "3", Value := .num 100, projectLabel := some "P" }

def rowProj : FinancialRow :=
  { Year := "2025", Month := "2", Sheet_Name := "Financial Status",
    Financial_Type := "Projection as at", Data_Type := "Gross Profit",
    Item_Code := "3", Value := .num 250, projectLabel := some "P" }

example : targetFinTypeOf [rowBP, rowProj] "P" "projected gp for march 2025" =
    some "Projection as at" := by decide
example : targetDataTypeOf [rowBP, rowProj] "P" "projected gp for march 2025" =
    some "Gross Profit" := by decide
example : targetSheetOf [rowBP, rowProj] "P" "projected gp for march 2025" "6" 2024 =
    none := by decide
example : fullFilteredOf [rowBP, rowProj] "P" "projected gp for march 2025" "6" 2024 =
    [] := by decide
example : relax1Of [rowBP, rowProj] "P" "projected gp for march 2025" "6" 2024 =
    [rowBP] := by decide
example :
    reportFinTypeLine
      (answerQuestion [rowBP, rowProj] "P" "projected gp for march 2025" "6" 2024).text =
    some "Projection as at" := by decide
example :
    reportRows
      (answerQuestion [rowBP, rowProj] "P" "projected gp for march 2025" "6" 2024).text =
    [rowBP] := by decide

/-! ## Properties of the stable descending sort -/

/-- Descending order on candidate scores. -/
def scoreGE (a b : Candidate) : Prop := b.score ≤ a.score

theorem insertDesc_mem (a : Candidate) (l : List Candidate) (x : Candidate) :
    x ∈ insertDesc a l ↔ x = a ∨ x ∈ l := by
  induction l with
  | nil => simp [insertDesc]
  | cons b bs ih =>
    by_cases h : a.score ≤ b.score
    · simp only [insertDesc, if_pos h, List.mem_cons, ih]
      tauto
    · simp only [insertDesc, if_neg h, List.mem_cons]

theorem insertDesc_sorted (a : Candidate) (l : List Candidate)
    (h : l.Pairwise scoreGE) : (insertDesc a l).Pairwise scoreGE := by
  induction l with
  | nil => simp [insertDesc, scoreGE]
  | cons b bs ih =>
    rw [List.pairwise_cons] at h
    by_cases hc : a.score ≤ b.score
    · rw [insertDesc, if_pos hc, List.pairwise_cons]
      refine ⟨fun x hx => ?_, ih h.2⟩
      rcases (insertDesc_mem a bs x).mp hx with rfl | hxbs
      · exact hc
      · exact h.1 x hxbs
    · rw [insertDesc, if_neg hc, List.pairwise_cons]
      refine ⟨fun x hx => ?_, List.pairwise_cons.mpr h⟩
      rcases List.mem_cons.mp hx with rfl | hxbs
      · exact Nat.le_of_not_le hc
      · exact Nat.le_trans (h.1 x hxbs) (Nat.le_of_not_le hc)

theorem insertDesc_perm (a : Candidate) (l : List Candidate) :
    (insertDesc a l).Perm (a :: l) := by
  induction l with
  | nil => simp [insertDesc]
  | cons b bs ih =>
    by_cases hc : a.score ≤ b.score
    · rw [insertDesc, if_pos hc]
      exact (ih.cons b).trans (List.Perm.swap a b bs)
    · rw [insertDesc, if_neg hc]

theorem sortDescAux_sorted (l acc : List Candidate) (h : acc.Pairwise scoreGE) :
    (l.foldl (fun acc a => insertDesc a acc) acc).Pairwise scoreGE := by
  induction l generalizing acc with
  | nil => exact h
  | cons a as ih => exact ih _ (insertDesc_sorted a acc h)

theorem sortDesc_sorted (l : List Candidate) : (sortDesc l).Pairwise scoreGE :=
  sortDescAux_sorted l [] (List.Pairwise.nil)

theorem sortDescAux_perm (l acc : List Candidate) :
    (l.foldl (fun acc a => insertDesc a acc) acc).Perm (acc ++ l) := by
  induction l generalizing acc with
  | nil => simp
  | cons a as ih =>
    refine (ih (insertDesc a acc)).trans ?_
    have h1 : (insertDesc a acc ++ as).Perm ((a :: acc) ++ as) :=
      (insertDesc_perm a acc).append_right as
    refine h1.trans ?_
    simpa using (List.perm_middle).symm

theorem sortDesc_perm (l : List Candidate) : (sortDesc l).Perm l :=
  sortDescAux_perm l []

theorem sortDesc_length (l : List Candidate) : (sortDesc l).length = l.length :=
  (sortDesc_perm l).length_eq

theorem scores_le_head (b : Candidate) (bs : List Candidate)
    (h : (b :: bs).Pairwise scoreGE) (x : Candidate) (hx : x ∈ b :: bs) :
    x.score ≤ b.score := by
  rcases List.mem_cons.mp hx with rfl | hxbs
  · exact Nat.le_refl _
  · exact (List.pairwise_cons.mp h).1 x hxbs

theorem insertDesc_filter (s : Nat) (a : Candidate) (l : List Candidate)
    (h : l.Pairwise scoreGE) :
    (insertDesc a l).filter (fun c => c.score == s) =
      l.filter (fun c => c.score == s) ++ (if a.score == s then [a] else []) := by
  induction l with
  | nil => by_cases hs : a.score = s <;> simp [insertDesc, hs]
  | cons b bs ih =>
    by_cases hc : a.score ≤ b.score
    · rw [insertDesc, if_pos hc]
      rw [List.filter_cons, List.filter_cons]
      rw [ih (List.pairwise_cons.mp h).2]
      by_cases hb : b.score = s <;> simp [hb]
    · rw [insertDesc, if_neg hc]
      by_cases hs : a.score = s
      · have hnil : (b :: bs).filter (fun c => c.score == s) = [] := by
          refine List.filter_eq_nil_iff.mpr (fun x hx => ?_)
          have hle : x.score ≤ b.score := scores_le_head b bs h x hx
          have : x.score < s := by omega
          simp; omega
        rw [List.filter_cons]
        have ha : (a.score == s) = true := by simp [hs]
        simp only [ha, if_pos, hnil]
        simp [hs]
      · have ha : (a.score == s) = false := by simp [hs]
        rw [List.filter_cons]
        simp [ha, hs]

theorem sortDescAux_filter (s : Nat) (l acc : List Candidate) (h : acc.Pairwise scoreGE) :
    (l.foldl (fun acc a => insertDesc a acc) acc).filter (fun c => c.score == s) =
      acc.filter (fun c => c.score == s) ++ l.filter (fun c => c.score == s) := by
  induction l generalizing acc with
  | nil => simp
  | cons a as ih =>
    show (as.foldl (fun acc a => insertDesc a acc) (insertDesc a acc)).filter _ = _
    rw [ih (insertDesc a acc) (insertDesc_sorted a acc h)]
    rw [insertDesc_filter s a acc h, List.filter_cons]
    by_cases hs : a.score = s <;> simp [hs]

/-- The stable sort preserves each score class in original order: the
elements of any given score appear in `sortDesc l` exactly as they appear
in `l`. -/
theorem sortDesc_filter (s : Nat) (l : List Candidate) :
    (sortDesc l).filter (fun c => c.score == s) = l.filter (fun c => c.score == s) := by
  simpa using sortDescAux_filter s l [] List.Pairwise.nil

theorem assignIds_map_score (l : List Candidate) (i : Nat) :
    (assignIds l i).map (·.score) = l.map (·.score) := by
  induction l generalizing i with
  | nil => rfl
  | cons c cs ih => simp [assignIds, ih]

theorem assignIds_length (l : List Candidate) (i : Nat) :
    (assignIds l i).length = l.length := by
  induction l generalizing i with
  | nil => rfl
  | cons c cs ih => simp [assignIds, ih]

theorem assignIds_map_id (l : List Candidate) (i : Nat) :
    (assignIds l i).map (·.id) = List.range' i l.length := by
  induction l generalizing i with
  | nil => rfl
  | cons c cs ih => simp [assignIds, ih, List.range'_succ]

/-! ## Properties of deduplication and of the matched-keyword lists -/

theorem jsDedupAux_mem {α : Type} [DecidableEq α] (seen : List α) (l : List α) (x : α) :
    x ∈ jsDedupAux seen l ↔ x ∈ l ∧ x ∉ seen := by
  induction l generalizing seen with
  | nil => simp [jsDedupAux]
  | cons y ys ih =>
    rw [jsDedupAux]
    by_cases hy : y ∈ seen
    · rw [if_pos hy, ih]
      by_cases hxy : x = y
      · subst hxy; simp [hy]
      · simp [hxy]
    · rw [if_neg hy]
      by_cases hxy : x = y
      · subst hxy; simp [hy]
      · simp only [List.mem_cons, ih, hxy, false_or]

theorem jsDedup_mem {α : Type} [DecidableEq α] (l : List α) (x : α) :
    x ∈ jsDedup l ↔ x ∈ l := by
  simp [jsDedup, jsDedupAux_mem]

theorem jsDedupAux_nodup {α : Type} [DecidableEq α] (seen : List α) (l : List α) :
    (jsDedupAux seen l).Nodup := by
  induction l generalizing seen with
  | nil => simp [jsDedupAux]
  | cons y ys ih =>
    by_cases hy : y ∈ seen
    · rw [jsDedupAux, if_pos hy]; exact ih seen
    · rw [jsDedupAux, if_neg hy]
      refine List.nodup_cons.mpr ⟨fun hc => ?_, ih (y :: seen)⟩
      exact ((jsDedupAux_mem (y :: seen) ys y).mp hc).2 (List.mem_cons_self y seen)

theorem jsDedup_nodup {α : Type} [DecidableEq α] (l : List α) : (jsDedup l).Nodup :=
  jsDedupAux_nodup [] l

theorem mem_if_singleton {c : Prop} [Decidable c] (x q : String) :
    x ∈ (if c then [q] else []) ↔ c ∧ x = q := by
  by_cases h : c <;> simp [h, eq_comm]

/-- The word a record pushes for a question token: one entry per
substring-matched field. -/
theorem scanWords_snd_mem (d : FinancialRow) (qs : List String) (x : String) :
    x ∈ (scanWords d qs).2 ↔ x ∈ qs ∧
      (strIncludes (jsToLower d.Financial_Type) x = true ∨
       strIncludes (jsToLower d.Data_Type) x = true ∨
       strIncludes (jsToLower d.Item_Code) x = true ∨
       strIncludes (jsToLower d.Sheet_Name) x = true) := by
  induction qs with
  | nil => simp [scanWords]
  | cons q qs ih =>
    simp only [scanWords, List.mem_append, mem_if_singleton, ih, List.mem_cons]
    constructor
    · rintro ((⟨hc, rfl⟩ | ⟨hc, rfl⟩ | ⟨hc, rfl⟩ | ⟨hc, rfl⟩) | ⟨hx, hcs⟩)
      · exact ⟨Or.inl rfl, Or.inl hc⟩
      · exact ⟨Or.inl rfl, Or.inr (Or.inl hc)⟩
      · exact ⟨Or.inl rfl, Or.inr (Or.inr (Or.inl hc))⟩
      · exact ⟨Or.inl rfl, Or.inr (Or.inr (Or.inr hc))⟩
      · exact ⟨Or.inr hx, hcs⟩
    · rintro ⟨rfl | hx, hcs⟩
      · rcases hcs with hc | hc | hc | hc
        · exact Or.inl (Or.inl ⟨hc, rfl⟩)
        · exact Or.inl (Or.inr (Or.inl ⟨hc, rfl⟩))
        · exact Or.inl (Or.inr (Or.inr (Or.inl ⟨hc, rfl⟩)))
        · exact Or.inl (Or.inr (Or.inr (Or.inr ⟨hc, rfl⟩)))
      · exact Or.inr ⟨hx, hcs⟩

/-- The financial-type bonus pushes its keyword exactly in the
containment (not equality) case. -/
theorem ftBonus_snd_mem (tFT : Option String) (d : FinancialRow) (x : String) :
    x ∈ (ftBonus tFT d).2 ↔ ∃ ft, tFT = some ft ∧ ft ≠ "" ∧
      d.Financial_Type ≠ ft ∧
      strIncludes (jsToLower d.Financial_Type) (jsToLower ft) = true ∧ x = ft := by
  cases tFT with
  | none => simp [ftBonus, jsTruthyS]
  | some ft =>
    by_cases hft : ft = ""
    · subst hft; simp [ftBonus, jsTruthyS]
    · by_cases heq : d.Financial_Type = ft
      · simp [ftBonus, jsTruthyS, hft, heq]
      · by_cases hinc : strIncludes (jsToLower d.Financial_Type) (jsToLower ft) = true
        · have hpair : ftBonus (some ft) d = (30, [ft]) := by
            simp [ftBonus, jsTruthyS, hft, heq, hinc]
          rw [hpair]
          simp only [List.mem_singleton]
          constructor
          · rintro rfl; exact ⟨_, rfl, hft, heq, hinc, rfl⟩
          · rintro ⟨ft2, hsome, _, _, _, rfl⟩
            exact (Option.some.inj hsome).symm
        · have hpair : ftBonus (some ft) d = (0, []) := by
            simp [ftBonus, jsTruthyS, hft, heq, hinc]
          rw [hpair]
          simp only [List.not_mem_nil, false_iff, not_exists]
          rintro ft2 ⟨hsome, _, _, h3, _⟩
          exact hinc ((Option.some.inj hsome) ▸ h3)

/-- The data-type bonus pushes its keyword exactly in the containment
(not equality) case. -/
theorem dtBonus_snd_mem (tDT : Option String) (d : FinancialRow) (x : String) :
    x ∈ (dtBonus tDT d).2 ↔ ∃ dt, tDT = some dt ∧ dt ≠ "" ∧
      d.Data_Type ≠ dt ∧
      strIncludes (jsToLower d.Data_Type) (jsToLower dt) = true ∧ x = dt := by
  cases tDT with
  | none => simp [dtBonus, jsTruthyS]
  | some dt =>
    by_cases hdt : dt = ""
    · subst hdt; simp [dtBonus, jsTruthyS]
    · by_cases heq : d.Data_Type = dt
      · simp [dtBonus, jsTruthyS, hdt, heq]
      · by_cases hinc : strIncludes (jsToLower d.Data_Type) (jsToLower dt) = true
        · have hpair : dtBonus (some dt) d = (25, [dt]) := by
            simp [dtBonus, jsTruthyS, hdt, heq, hinc]
          rw [hpair]
          simp only [List.mem_singleton]
          constructor
          · rintro rfl; exact ⟨_, rfl, hdt, heq, hinc, rfl⟩
          · rintro ⟨dt2, hsome, _, _, _, rfl⟩
            exact (Option.some.inj hsome).symm
        · have hpair : dtBonus (some dt) d = (0, []) := by
            simp [dtBonus, jsTruthyS, hdt, heq, hinc]
          rw [hpair]
          simp only [List.not_mem_nil, false_iff, not_exists]
          rintro dt2 ⟨hsome, _, _, h3, _⟩
          exact hinc ((Option.some.inj hsome) ▸ h3)

/-! ## The best-distance invariant of `findClosestMatch` -/

theorem fcmUpdate_spec (best : Option (String × Nat)) (c : String) (d : Nat) :
    ∃ m2 d2, fcmUpdate best c d = some (m2, d2) ∧ d2 ≤ d ∧
      (∀ m bd, best = some (m, bd) → d2 ≤ bd) := by
  cases best with
  | none => exact ⟨c, d, rfl, Nat.le_refl d, by simp⟩
  | some p =>
    obtain ⟨m, bd⟩ := p
    by_cases hlt : d < bd
    · refine ⟨c, d, by simp [fcmUpdate, hlt], Nat.le_refl d, ?_⟩
      intro m2 bd2 heq
      obtain ⟨h1, h2⟩ := Prod.mk.inj (Option.some.inj heq)
      omega
    · refine ⟨m, bd, by simp [fcmUpdate, hlt], by omega, ?_⟩
      intro m2 bd2 heq
      obtain ⟨h1, h2⟩ := Prod.mk.inj (Option.some.inj heq)
      omega

/-- If the candidate loop ends with no result, then the final gate failed
for the tracked best (twice its distance exceeds the input length), and in
particular every word-level match among the remaining candidates has a
length difference exceeding half the input length. -/
theorem fcmGo_none_spec (ninput : String) (cs : List String)
    (best : Option (String × Nat)) (h : fcmGo ninput cs best = none) :
    (∀ m d, best = some (m, d) → ninput.length < 2 * d) ∧
    (∀ c ∈ cs, isWordLevelMatch ninput (jsTrim (jsToLower c)) = true →
      ninput.length < 2 * absDiff (jsTrim (jsToLower c)).length ninput.length) := by
  induction cs generalizing best with
  | nil =>
    refine ⟨fun m d hbd => ?_, by simp⟩
    rw [hbd] at h
    by_cases hle : 2 * d ≤ ninput.length
    · simp [fcmGo, hle] at h
    · omega
  | cons c cs ih =>
    simp only [fcmGo] at h
    by_cases hex : (ninput == jsTrim (jsToLower c)) = true
    · rw [if_pos hex] at h
      exact absurd h (by simp)
    · rw [if_neg hex] at h
      constructor
      · intro m d hbd
        by_cases hw : isWordLevelMatch ninput (jsTrim (jsToLower c)) = true
        · rw [if_pos hw] at h
          obtain ⟨m2, d2, heq, hled, hbest⟩ :=
            fcmUpdate_spec best c (absDiff (jsTrim (jsToLower c)).length ninput.length)
          have hA := (ih _ h).1 m2 d2 heq
          have hB := hbest m d hbd
          omega
        · rw [if_neg hw] at h
          by_cases hs : charSimilarityOK ninput (jsTrim (jsToLower c)) = true
          · rw [if_pos hs] at h
            obtain ⟨m2, d2, heq, hled, hbest⟩ :=
              fcmUpdate_spec best c (levenshteinDistance ninput (jsTrim (jsToLower c)))
            have hA := (ih _ h).1 m2 d2 heq
            have hB := hbest m d hbd
            omega
          · rw [if_neg hs] at h
            exact (ih _ h).1 m d hbd
      · intro c2 hc2 hwm
        rcases List.mem_cons.mp hc2 with rfl | hmem
        · rw [if_pos hwm] at h
          obtain ⟨m2, d2, heq, hled, _⟩ :=
            fcmUpdate_spec best c2 (absDiff (jsTrim (jsToLower c2)).length ninput.length)
          have hA := (ih _ h).1 m2 d2 heq
          omega
        · by_cases hw : isWordLevelMatch ninput (jsTrim (jsToLower c)) = true
          · rw [if_pos hw] at h
            exact (ih _ h).2 c2 hmem hwm
          · rw [if_neg hw] at h
            by_cases hs : charSimilarityOK ninput (jsTrim (jsToLower c)) = true
            · rw [if_pos hs] at h
              exact (ih _ h).2 c2 hmem hwm
            · rw [if_neg hs] at h
              exact (ih _ h).2 c2 hmem hwm

/-! ## Value-independence of the candidate scorer -/

/-- A row with its `Value` replaced by a fixed dummy: two rows agree on
`stripRow` exactly when they agree on everything except `Value`. -/
def stripRow (d : FinancialRow) : FinancialRow := { d with Value := .num 0 }

/-- A candidate with its `value` replaced by a fixed dummy. -/
def stripCand (c : Candidate) : Candidate := { c with value := .num 0 }

theorem stripCand_score (c : Candidate) : (stripCand c).score = c.score := rfl

theorem map_filter_of_map_eq {α β : Type} (f : α → β) (p : α → Bool) (q : β → Bool)
    (hpq : ∀ a, p a = q (f a)) :
    ∀ (l₁ l₂ : List α), l₁.map f = l₂.map f →
      (l₁.filter p).map f = (l₂.filter p).map f := by
  intro l₁
  induction l₁ with
  | nil =>
    intro l₂ h
    have : l₂.map f = [] := h.symm
    rw [List.map_eq_nil_iff] at this
    simp [this]
  | cons a as ih =>
    intro l₂ h
    cases l₂ with
    | nil => simp at h
    | cons b bs =>
      simp only [List.map_cons, List.cons.injEq] at h
      rw [List.filter_cons, List.filter_cons]
      have hpab : p a = p b := by rw [hpq a, hpq b, h.1]
      by_cases hp : p a = true
      · rw [if_pos hp, if_pos (hpab ▸ hp)]
        simp only [List.map_cons, h.1, ih bs h.2]
      · rw [if_neg hp, if_neg (fun hc => hp (hpab ▸ hc))]
        exact ih bs h.2

theorem map_factor {α β γ : Type} (f : α → β) (F : α → γ) (g : β → γ)
    (hf : ∀ a, F a = g (f a)) (l₁ l₂ : List α) (h : l₁.map f = l₂.map f) :
    l₁.map F = l₂.map F := by
  have key : ∀ l : List α, l.map F = (l.map f).map g := by
    intro l
    rw [List.map_map]
    exact List.map_congr_left (fun a _ => hf a)
  rw [key, key, h]

theorem projectDataOf_strip (d₁ d₂ : List FinancialRow) (project : String)
    (h : d₁.map stripRow = d₂.map stripRow) :
    (projectDataOf d₁ project).map stripRow = (projectDataOf d₂ project).map stripRow :=
  map_filter_of_map_eq stripRow _ (fun d => decide (d.projectLabel = some project))
    (fun _ => rfl) d₁ d₂ h

theorem getUniqueValues_strip (d₁ d₂ : List FinancialRow) (project : String)
    (f : FinancialRow → String) (hf : ∀ d, f (stripRow d) = f d)
    (h : d₁.map stripRow = d₂.map stripRow) :
    getUniqueValues d₁ project f = getUniqueValues d₂ project f := by
  unfold getUniqueValues
  have h1 : (d₁.filter (fun d => d.projectLabel = some project)).map stripRow =
      (d₂.filter (fun d => d.projectLabel = some project)).map stripRow :=
    map_filter_of_map_eq stripRow _ (fun d => decide (d.projectLabel = some project))
      (fun a => rfl) d₁ d₂ h
  have h2 : (d₁.filter (fun d => d.projectLabel = some project)).map f =
      (d₂.filter (fun d => d.projectLabel = some project)).map f :=
    map_factor stripRow f (fun sr => f sr) (fun a => (hf a).symm) _ _ h1
  rw [h2]

theorem applyFilter_strip (r₁ r₂ : List FinancialRow) (v : Option String)
    (f : FinancialRow → String) (hf : ∀ d, f (stripRow d) = f d)
    (h : r₁.map stripRow = r₂.map stripRow) :
    (applyFilter r₁ v f).map stripRow = (applyFilter r₂ v f).map stripRow := by
  unfold applyFilter
  by_cases hv : jsTruthyS v = true
  · rw [if_pos hv, if_pos hv]
    exact map_filter_of_map_eq stripRow _ (fun d => f d == v.getD "")
      (fun a => by rw [← hf a]) r₁ r₂ h
  · rw [if_neg hv, if_neg hv]
    exact h

theorem stripRow_Year (d : FinancialRow) : (stripRow d).Year = d.Year := rfl
theorem stripRow_Month (d : FinancialRow) : (stripRow d).Month = d.Month := rfl
theorem stripRow_Sheet (d : FinancialRow) : (stripRow d).Sheet_Name = d.Sheet_Name := rfl
theorem stripRow_FT (d : FinancialRow) : (stripRow d).Financial_Type = d.Financial_Type := rfl
theorem stripRow_DT (d : FinancialRow) : (stripRow d).Data_Type = d.Data_Type := rfl
theorem stripRow_IC (d : FinancialRow) : (stripRow d).Item_Code = d.Item_Code := rfl

theorem applyF5_strip (r₁ r₂ : List FinancialRow) (ts : Option String)
    (parsed : ParsedQuery) (tFT tDT : Option String)
    (h : r₁.map stripRow = r₂.map stripRow) :
    (applyF5 r₁ ts parsed tFT tDT).map stripRow =
      (applyF5 r₂ ts parsed tFT tDT).map stripRow := by
  unfold applyF5
  apply applyFilter_strip
  · exact fun d => rfl
  apply applyFilter_strip
  · exact fun d => rfl
  apply applyFilter_strip
  · exact fun d => rfl
  apply applyFilter_strip
  · exact fun d => rfl
  exact applyFilter_strip _ _ _ _ (fun d => rfl) h

theorem applyF4_strip (r₁ r₂ : List FinancialRow) (ts : Option String)
    (parsed : ParsedQuery) (tDT : Option String)
    (h : r₁.map stripRow = r₂.map stripRow) :
    (applyF4 r₁ ts parsed tDT).map stripRow =
      (applyF4 r₂ ts parsed tDT).map stripRow := by
  unfold applyF4
  apply applyFilter_strip
  · exact fun d => rfl
  apply applyFilter_strip
  · exact fun d => rfl
  apply applyFilter_strip
  · exact fun d => rfl
  exact applyFilter_strip _ _ _ _ (fun d => rfl) h

theorem applyF3_strip (r₁ r₂ : List FinancialRow) (ts : Option String)
    (parsed : ParsedQuery)
    (h : r₁.map stripRow = r₂.map stripRow) :
    (applyF3 r₁ ts parsed).map stripRow = (applyF3 r₂ ts parsed).map stripRow := by
  unfold applyF3
  apply applyFilter_strip
  · exact fun d => rfl
  apply applyFilter_strip
  · exact fun d => rfl
  exact applyFilter_strip _ _ _ _ (fun d => rfl) h

theorem scanWords_strip (d : FinancialRow) (qs : List String) :
    scanWords (stripRow d) qs = scanWords d qs := by
  induction qs with
  | nil => rfl
  | cons q qs ih => simp only [scanWords, ih, stripRow_FT, stripRow_DT, stripRow_IC, stripRow_Sheet]

theorem ftBonus_strip (tFT : Option String) (d : FinancialRow) :
    ftBonus tFT (stripRow d) = ftBonus tFT d := by
  simp only [ftBonus, stripRow_FT]

theorem dtBonus_strip (tDT : Option String) (d : FinancialRow) :
    dtBonus tDT (stripRow d) = dtBonus tDT d := by
  simp only [dtBonus, stripRow_DT]

theorem mkCandidate_strip (qW : List String) (tFT tDT : Option String)
    (parsed : ParsedQuery) (d : FinancialRow) :
    stripCand (mkCandidate qW tFT tDT parsed d) =
      stripCand (mkCandidate qW tFT tDT parsed (stripRow d)) := by
  simp only [mkCandidate, stripCand, scanWords_strip, ftBonus_strip, dtBonus_strip,
    stripRow_Year, stripRow_Month, stripRow_Sheet, stripRow_FT, stripRow_DT, stripRow_IC]

theorem insertDesc_strip (a₁ a₂ : Candidate) (l₁ l₂ : List Candidate)
    (ha : stripCand a₁ = stripCand a₂) (hl : l₁.map stripCand = l₂.map stripCand) :
    (insertDesc a₁ l₁).map stripCand = (insertDesc a₂ l₂).map stripCand := by
  have hsa : a₁.score = a₂.score := by
    rw [← stripCand_score a₁, ha, stripCand_score]
  induction l₁ generalizing l₂ with
  | nil =>
    have h2 : l₂ = [] := by
      have := hl.symm
      simpa [List.map_eq_nil_iff] using this
    subst h2
    simp [insertDesc, ha]
  | cons b₁ bs₁ ih =>
    cases l₂ with
    | nil => simp at hl
    | cons b₂ bs₂ =>
      simp only [List.map_cons, List.cons.injEq] at hl
      have hsb : b₁.score = b₂.score := by
        rw [← stripCand_score b₁, hl.1, stripCand_score]
      by_cases hc : a₁.score ≤ b₁.score
      · rw [insertDesc, if_pos hc, insertDesc, if_pos (by omega : a₂.score ≤ b₂.score)]
        simp only [List.map_cons, hl.1, ih bs₂ hl.2]
      · rw [insertDesc, if_neg hc, insertDesc,
          if_neg (by omega : ¬a₂.score ≤ b₂.score)]
        simp only [List.map_cons, ha, hl.1, hl.2]

theorem sortDescAux_strip (l₁ : List Candidate) :
    ∀ (l₂ acc₁ acc₂ : List Candidate),
      l₁.map stripCand = l₂.map stripCand → acc₁.map stripCand = acc₂.map stripCand →
      (l₁.foldl (fun acc a => insertDesc a acc) acc₁).map stripCand =
        (l₂.foldl (fun acc a => insertDesc a acc) acc₂).map stripCand := by
  induction l₁ with
  | nil =>
    intro l₂ acc₁ acc₂ hl hacc
    have h2 : l₂ = [] := by
      have := hl.symm
      simpa [List.map_eq_nil_iff] using this
    subst h2
    simpa using hacc
  | cons a₁ as₁ ih =>
    intro l₂ acc₁ acc₂ hl hacc
    cases l₂ with
    | nil => simp at hl
    | cons a₂ as₂ =>
      simp only [List.map_cons, List.cons.injEq] at hl
      exact ih as₂ _ _ hl.2 (insertDesc_strip a₁ a₂ acc₁ acc₂ hl.1 hacc)

theorem sortDesc_strip (l₁ l₂ : List Candidate)
    (hl : l₁.map stripCand = l₂.map stripCand) :
    (sortDesc l₁).map stripCand = (sortDesc l₂).map stripCand :=
  sortDescAux_strip l₁ l₂ [] [] hl rfl

theorem assignIds_strip (l₁ : List Candidate) :
    ∀ (l₂ : List Candidate) (i : Nat), l₁.map stripCand = l₂.map stripCand →
      (assignIds l₁ i).map stripCand = (assignIds l₂ i).map stripCand := by
  induction l₁ with
  | nil =>
    intro l₂ i hl
    have h2 : l₂ = [] := by
      have := hl.symm
      simpa [List.map_eq_nil_iff] using this
    subst h2
    rfl
  | cons c₁ cs₁ ih =>
    intro l₂ i hl
    cases l₂ with
    | nil => simp at hl
    | cons c₂ cs₂ =>
      simp only [List.map_cons, List.cons.injEq] at hl
      have hid : ∀ (c : Candidate) (i : Nat),
          stripCand { c with id := i } = { stripCand c with id := i } := fun _ _ => rfl
      simp only [assignIds, List.map_cons]
      rw [hid c₁ i, hid c₂ i, hl.1, ih cs₂ (i + 1) hl.2]

theorem rankCandidates_strip (pd₁ pd₂ : List FinancialRow) (qW : List String)
    (tFT tDT : Option String) (parsed : ParsedQuery)
    (h : pd₁.map stripRow = pd₂.map stripRow) :
    (rankCandidates pd₁ qW tFT tDT parsed).map stripCand =
      (rankCandidates pd₂ qW tFT tDT parsed).map stripCand := by
  unfold rankCandidates
  apply assignIds_strip
  rw [List.map_take, List.map_take]
  have hscored : (pd₁.map (mkCandidate qW tFT tDT parsed)).map stripCand =
      (pd₂.map (mkCandidate qW tFT tDT parsed)).map stripCand := by
    rw [List.map_map, List.map_map]
    exact map_factor stripRow _ (fun sr => stripCand (mkCandidate qW tFT tDT parsed sr))
      (fun d => mkCandidate_strip qW tFT tDT parsed d) pd₁ pd₂ h
  rw [sortDesc_strip _ _ hscored]

theorem map_eq_isEmpty {α β : Type} (f : α → β) (l₁ l₂ : List α)
    (h : l₁.map f = l₂.map f) : l₁.isEmpty = l₂.isEmpty := by
  cases l₁ <;> cases l₂ <;> simp_all

theorem answerQuestion_strip (d₁ d₂ : List FinancialRow) (project question dm : String)
    (cy : Nat) (h : d₁.map stripRow = d₂.map stripRow) :
    (answerQuestion d₁ project question dm cy).candidates.map stripCand =
      (answerQuestion d₂ project question dm cy).candidates.map stripCand := by
  have hpd := projectDataOf_strip d₁ d₂ project h
  have hsheets : sheetsOf d₁ project = sheetsOf d₂ project :=
    getUniqueValues_strip d₁ d₂ project (fun d => d.Sheet_Name) (fun d => rfl) h
  have hts : targetSheetOf d₁ project question dm cy =
      targetSheetOf d₂ project question dm cy := by
    unfold targetSheetOf
    rw [hsheets]
  have htft : targetFinTypeOf d₁ project question = targetFinTypeOf d₂ project question := by
    unfold targetFinTypeOf finTypesOf
    rw [getUniqueValues_strip d₁ d₂ project (fun d => d.Financial_Type) (fun d => rfl) h]
  have htdt : targetDataTypeOf d₁ project question =
      targetDataTypeOf d₂ project question := by
    unfold targetDataTypeOf dataTypesOf
    rw [getUniqueValues_strip d₁ d₂ project (fun d => d.Data_Type) (fun d => rfl) h]
  have hf1 : (fullFilteredOf d₁ project question dm cy).map stripRow =
      (fullFilteredOf d₂ project question dm cy).map stripRow := by
    unfold fullFilteredOf
    rw [hts, htft, htdt]
    exact applyF5_strip _ _ _ _ _ _ hpd
  have hr1 : (relax1Of d₁ project question dm cy).map stripRow =
      (relax1Of d₂ project question dm cy).map stripRow := by
    unfold relax1Of
    rw [hts, htdt]
    exact applyF4_strip _ _ _ _ _ hpd
  have hr2 : (relax2Of d₁ project question dm cy).map stripRow =
      (relax2Of d₂ project question dm cy).map stripRow := by
    unfold relax2Of
    rw [hts]
    exact applyF3_strip _ _ _ _ hpd
  have he0 := map_eq_isEmpty stripRow _ _ hpd
  have he1 := map_eq_isEmpty stripRow _ _ hf1
  have he2 := map_eq_isEmpty stripRow _ _ hr1
  have he3 := map_eq_isEmpty stripRow _ _ hr2
  have hrank : ∀ (f₁ f₂ : List FinancialRow) (s₁ s₂ : Option String),
      (reportResult d₁ project question dm cy f₁ s₁).candidates.map stripCand =
        (reportResult d₂ project question dm cy f₂ s₂).candidates.map stripCand := by
    intro f₁ f₂ s₁ s₂
    simp only [reportResult]
    rw [htft, htdt]
    exact rankCandidates_strip _ _ _ _ _ _ hpd
  simp only [answerQuestion]
  rw [he0, hts, htft, htdt, he1, he2, he3]
  by_cases c0 : (projectDataOf d₂ project).isEmpty = true
  · rw [if_pos c0, if_pos c0]
  · rw [if_neg c0, if_neg c0]
    by_cases c1 : (!(fullFilteredOf d₂ project question dm cy).isEmpty) = true
    · rw [if_pos c1, if_pos c1]
      exact hrank _ _ _ _
    · rw [if_neg c1, if_neg c1]
      by_cases c2 : (!(relax1Of d₂ project question dm cy).isEmpty) = true
      · rw [if_pos c2, if_pos c2]
        exact hrank _ _ _ _
      · rw [if_neg c2, if_neg c2]
        by_cases c3 : (!(relax2Of d₂ project question dm cy).isEmpty) = true
        · rw [if_pos c3, if_pos c3]
          exact hrank _ _ _ _
        · rw [if_neg c3, if_neg c3]

/-! ## The month loop scans months in calendar order -/

theorem find?_range'_min (p : Nat → Bool) :
    ∀ (n s j : Nat), (List.range' s n).find? p = some j →
      p j = true ∧ s ≤ j ∧ j < s + n ∧ ∀ k, s ≤ k → k < j → p k = false := by
  intro n
  induction n with
  | zero => intro s j h; simp [List.range'] at h
  | succ m ih =>
    intro s j h
    rw [List.range'_succ, List.find?_cons] at h
    by_cases hs : p s = true
    · rw [hs] at h
      simp at h
      subst h
      exact ⟨hs, Nat.le_refl s, by omega, fun k h1 h2 => by omega⟩
    · have hs2 : p s = false := by
        cases hps : p s
        · rfl
        · exact absurd hps hs
      rw [hs2] at h
      simp only [Bool.false_eq_true, if_false] at h
      obtain ⟨hpj, hsj, hjlt, hmin⟩ := ih (s + 1) j h
      refine ⟨hpj, by omega, by omega, fun k h1 h2 => ?_⟩
      by_cases hk : k = s
      · subst hk; exact hs2
      · exact hmin k (by omega) h2

theorem find?_range_min (p : Nat → Bool) (n j : Nat)
    (h : (List.range n).find? p = some j) :
    p j = true ∧ j < n ∧ ∀ k, k < j → p k = false := by
  rw [List.range_eq_range'] at h
  obtain ⟨h1, _, h3, h4⟩ := find?_range'_min p n 0 j h
  exact ⟨h1, by omega, fun k hk => h4 k (by omega) hk⟩

/-- `monthScan` returns the lowest calendar month present in the text. -/
theorem monthScan_min (lq : List Char) (i : Nat) (hi : i < 12)
    (hhit : monthHit lq i = true) :
    ∃ j, j < 12 ∧ monthHit lq j = true ∧ (∀ k, k < j → monthHit lq k = false) ∧
      monthScan lq = some j := by
  have hsome : (monthScan lq).isSome = true := by
    rw [monthScan, List.find?_isSome]
    exact ⟨i, by simp [List.mem_range, hi], hhit⟩
  obtain ⟨j, hj⟩ := Option.isSome_iff_exists.mp hsome
  obtain ⟨h1, h2, h3⟩ := find?_range_min (fun k => monthHit lq k) 12 j hj
  exact ⟨j, h2, h1, h3, hj⟩

theorem monthGuard (j : Nat) (hj : j < 12) :
    (toString (j + 1)).length = 1 ∨
      ((toString (j + 1)).length = 2 ∧ toString (j + 1) ≠ "20" ∧ toString (j + 1) ≠ "21" ∧
        toString (j + 1) ≠ "22" ∧ toString (j + 1) ≠ "23") := by
  interval_cases j <;> decide

theorem monthTruthy (j : Nat) (hj : j < 12) :
    jsTruthyS (some (toString (j + 1))) = true := by
  interval_cases j <;> decide

/-- The month field of `parseDate` when some month name occurs: the lowest
calendar-order month present wins (not the first occurrence in the text). -/
theorem parseDate_month_min (q dm : String) (i : Nat) (hi : i < 12)
    (hhit : monthHit ((jsToLower q).toList) i = true) :
    ∃ j, j < 12 ∧ monthHit ((jsToLower q).toList) j = true ∧
      (∀ k, k < j → monthHit ((jsToLower q).toList) k = false) ∧
      (parseDate q dm).month = some (toString (j + 1)) := by
  obtain ⟨j, hj12, hjhit, hjmin, hscan⟩ := monthScan_min ((jsToLower q).toList) i hi hhit
  refine ⟨j, hj12, hjhit, hjmin, ?_⟩
  simp only [parseDate]
  rw [hscan]
  simp only [if_pos (monthGuard j hj12)]
  simp [monthTruthy j hj12]

/-! ## The item-code groups contain exactly the filtered rows -/

theorem groupPush_flatten_mem (acc : List (String × List FinancialRow)) (key : String)
    (d x : FinancialRow) :
    x ∈ ((groupPush acc key d).map Prod.snd).flatten ↔
      x ∈ (acc.map Prod.snd).flatten ∨ x = d := by
  induction acc with
  | nil => simp [groupPush]
  | cons p rest ih =>
    obtain ⟨k, rows⟩ := p
    by_cases hk : (k == key) = true
    · simp only [groupPush, if_pos hk, List.map_cons, List.flatten_cons, List.mem_append,
        List.mem_singleton]
      tauto
    · simp only [groupPush, if_neg hk]
      simp only [List.map_cons, List.flatten_cons, List.mem_append, ih]
      tauto

theorem groupByItemCode_foldl_mem (rows : List FinancialRow) :
    ∀ (acc : List (String × List FinancialRow)) (x : FinancialRow),
      x ∈ ((rows.foldl (fun acc d =>
            groupPush acc (if d.Item_Code != "" then d.Item_Code else "Unknown") d) acc).map
          Prod.snd).flatten ↔
        x ∈ (acc.map Prod.snd).flatten ∨ x ∈ rows := by
  induction rows with
  | nil => intro acc x; simp
  | cons d ds ih =>
    intro acc x
    simp only [List.foldl_cons, ih, groupPush_flatten_mem, List.mem_cons]
    tauto

/-- Membership in the `By Item Code` groups is exactly membership in the
filtered rows. -/
theorem groupByItemCode_mem (rows : List FinancialRow) (x : FinancialRow) :
    x ∈ ((groupByItemCode rows).map Prod.snd).flatten ↔ x ∈ rows := by
  rw [groupByItemCode, groupByItemCode_foldl_mem]
  simp

/-- Concrete record for the matched-keyword counterexample: it matches the
parsed month (+20 score) but no question token and no inferred type. -/
def rowM : FinancialRow :=
  { Year := "2030", Month := "5", Sheet_Name := "S", Financial_Type := "A",
    Data_Type := "B", Item_Code := "9", Value := .num 7, projectLabel := some "P" }

example : (mkCandidate ["hello"] none none { month := some "5", year := none } rowM).score
    = 20 := by decide
example : (mkCandidate ["hello"] none none { month := some "5", year := none }
    rowM).matchedKeywords = [] := by decide

/-! ## Claim theorems -/

/-- C1 (amended): when the five inferred filters match no record but
dropping only the financial-type filter yields records, the engine
returns a report over those relaxed records — yet the filter report still
lists the inferred financial type as an applied filter (and names the
sheet line `targetSheet || 'Financial Status'`); it does not state that
the financial-type filter was dropped.  The records shown are exactly the
result of the financial-type-free filter. -/
theorem C1_relaxation_report (data : List FinancialRow) (project question dm : String)
    (cy : Nat) (ft : String)
    (h0 : (projectDataOf data project).isEmpty = false)
    (hft : targetFinTypeOf data project question = some ft)
    (h1 : (fullFilteredOf data project question dm cy).isEmpty = true)
    (h2 : (relax1Of data project question dm cy).isEmpty = false) :
    answerQuestion data project question dm cy =
      reportResult data project question dm cy (relax1Of data project question dm cy)
        (some (jsOrS (targetSheetOf data project question dm cy) "Financial Status")) ∧
    reportFinTypeLine (answerQuestion data project question dm cy).text = some ft ∧
    (∀ r, r ∈ reportRows (answerQuestion data project question dm cy).text ↔
      r ∈ relax1Of data project question dm cy) := by
  have hmain : answerQuestion data project question dm cy =
      reportResult data project question dm cy (relax1Of data project question dm cy)
        (some (jsOrS (targetSheetOf data project question dm cy) "Financial Status")) := by
    simp [answerQuestion, h0, h1, h2]
  refine ⟨hmain, ?_, ?_⟩
  · rw [hmain]
    simp only [reportResult, reportFinTypeLine]
    exact hft
  · intro r
    rw [hmain]
    simp only [reportResult, reportRows]
    exact groupByItemCode_mem _ r

/-- C1 counterexample: on this dataset and question the full filter set is
empty, the relaxation drops the inferred financial type `'Projection as
at'` and returns the Business-Plan record — but the report still lists
`Financial Type: Projection as at` as an applied filter; the claim, which
demands that the report state the financial-type filter was *not*
applied, is false here. -/
theorem C1_counterexample :
    fullFilteredOf [rowBP, rowProj] "P" "projected gp for march 2025" "6" 2024 = [] ∧
    relax1Of [rowBP, rowProj] "P" "projected gp for march 2025" "6" 2024 = [rowBP] ∧
    reportFinTypeLine
      (answerQuestion [rowBP, rowProj] "P" "projected gp for march 2025" "6" 2024).text =
      some "Projection as at" ∧
    rowBP ∈ reportRows
      (answerQuestion [rowBP, rowProj] "P" "projected gp for march 2025" "6" 2024).text ∧
    rowBP.Financial_Type ≠ "Projection as at" := by
  refine ⟨by decide, by decide, by decide, ?_, by decide⟩
  decide

theorem C1_witness :
    reportFinTypeLine
      (answerQuestion [rowBP, rowProj] "P" "projected gp for march 2025" "6" 2024).text =
      some "Projection as at" :=
  (C1_relaxation_report [rowBP, rowProj] "P" "projected gp for march 2025" "6" 2024
    "Projection as at" (by decide) (by decide) (by decide) (by decide)).2.1

/-- C2 (confirmed): each of the four money metrics of `getProjectMetrics`
is the sum of the numeric values of its matching project records, is 0
when no record matches (including the empty-project early return), and on
the spec's one-record dataset yields businessPlanGP = 100 with the other
three metrics 0.  All definitions are total, so no error is possible. -/
theorem C2_metrics (data : List FinancialRow) (project : String) :
    ((getProjectMetrics data project).businessPlanGP =
        sumVals ((projectDataOf data project).filter bpPred) ∧
      (getProjectMetrics data project).projectedGP =
        sumVals ((projectDataOf data project).filter projPred) ∧
      (getProjectMetrics data project).wipGP =
        sumVals ((projectDataOf data project).filter wipPred) ∧
      (getProjectMetrics data project).cashFlow =
        sumVals ((projectDataOf data project).filter cfPred)) ∧
    (((projectDataOf data project).filter bpPred = [] →
        (getProjectMetrics data project).businessPlanGP = 0) ∧
      ((projectDataOf data project).filter projPred = [] →
        (getProjectMetrics data project).projectedGP = 0) ∧
      ((projectDataOf data project).filter wipPred = [] →
        (getProjectMetrics data project).wipGP = 0) ∧
      ((projectDataOf data project).filter cfPred = [] →
        (getProjectMetrics data project).cashFlow = 0)) ∧
    ((getProjectMetrics [bpRow] "P").businessPlanGP = 100 ∧
      (getProjectMetrics [bpRow] "P").projectedGP = 0 ∧
      (getProjectMetrics [bpRow] "P").wipGP = 0 ∧
      (getProjectMetrics [bpRow] "P").cashFlow = 0) := by
  have hbp : (getProjectMetrics data project).businessPlanGP =
      sumVals ((projectDataOf data project).filter bpPred) := by
    by_cases hp : projectDataOf data project = []
    · simp [getProjectMetrics, hp, sumVals]
    · simp [getProjectMetrics, hp]
  have hproj : (getProjectMetrics data project).projectedGP =
      sumVals ((projectDataOf data project).filter projPred) := by
    by_cases hp : projectDataOf data project = []
    · simp [getProjectMetrics, hp, sumVals]
    · simp [getProjectMetrics, hp]
  have hwip : (getProjectMetrics data project).wipGP =
      sumVals ((projectDataOf data project).filter wipPred) := by
    by_cases hp : projectDataOf data project = []
    · simp [getProjectMetrics, hp, sumVals]
    · simp [getProjectMetrics, hp]
  have hcf : (getProjectMetrics data project).cashFlow =
      sumVals ((projectDataOf data project).filter cfPred) := by
    by_cases hp : projectDataOf data project = []
    · simp [getProjectMetrics, hp, sumVals]
    · simp [getProjectMetrics, hp]
  refine ⟨⟨hbp, hproj, hwip, hcf⟩,
    ⟨fun h => by rw [hbp, h]; rfl, fun h => by rw [hproj, h]; rfl,
     fun h => by rw [hwip, h]; rfl, fun h => by rw [hcf, h]; rfl⟩, ?_, ?_, ?_, ?_⟩
  · have h : (getProjectMetrics [bpRow] "P").businessPlanGP = sumVals [bpRow] := rfl
    rw [h]
    norm_num [sumVals, toNumber, bpRow]
  · have h : (getProjectMetrics [bpRow] "P").projectedGP = sumVals [] := rfl
    rw [h]; rfl
  · have h : (getProjectMetrics [bpRow] "P").wipGP = sumVals [] := rfl
    rw [h]; rfl
  · have h : (getProjectMetrics [bpRow] "P").cashFlow = sumVals [] := rfl
    rw [h]; rfl

theorem C2_witness : (getProjectMetrics [rowProj] "P").businessPlanGP = 0 :=
  (C2_metrics [rowProj] "P").2.1.1 (by decide)

/-- C3 (confirmed): the ranked candidate list has at most 10 entries, its
scores are non-increasing (descending order), its display ids are the
consecutive integers 1..N in list order, ties keep the original dataset
order (each score class of the stable sort equals the same class of the
unsorted scored list), and the candidates of `answerQuestion` are either
empty (no-data / no-match responses) or exactly this ranked list. -/
theorem C3_rank (pd : List FinancialRow) (qW : List String) (tFT tDT : Option String)
    (parsed : ParsedQuery) (data : List FinancialRow) (project question dm : String)
    (cy : Nat) :
    (rankCandidates pd qW tFT tDT parsed).length ≤ 10 ∧
    List.Pairwise (fun a b : Nat => b ≤ a)
      ((rankCandidates pd qW tFT tDT parsed).map (·.score)) ∧
    (rankCandidates pd qW tFT tDT parsed).map (·.id) =
      List.range' 1 (rankCandidates pd qW tFT tDT parsed).length ∧
    (∀ s : Nat,
      (sortDesc (pd.map (mkCandidate qW tFT tDT parsed))).filter (fun c => c.score == s) =
        (pd.map (mkCandidate qW tFT tDT parsed)).filter (fun c => c.score == s)) ∧
    ((answerQuestion data project question dm cy).candidates = [] ∨
      (answerQuestion data project question dm cy).candidates =
        rankCandidates (projectDataOf data project) (qWordsOf question)
          (targetFinTypeOf data project question) (targetDataTypeOf data project question)
          (parsedOf question dm)) := by
  refine ⟨?_, ?_, ?_, fun s => sortDesc_filter s _, ?_⟩
  · rw [rankCandidates, assignIds_length, List.length_take]
    omega
  · rw [rankCandidates, assignIds_map_score, List.map_take]
    have hs : List.Pairwise (fun a b : Nat => b ≤ a)
        ((sortDesc (pd.map (mkCandidate qW tFT tDT parsed))).map (·.score)) :=
      List.pairwise_map.mpr (sortDesc_sorted _)
    exact hs.sublist (List.take_sublist _ _)
  · rw [rankCandidates, assignIds_map_id, assignIds_length]
  · by_cases c0 : (projectDataOf data project).isEmpty = true
    · left; simp [answerQuestion, c0]
    · by_cases c1 : (fullFilteredOf data project question dm cy).isEmpty = true
      · by_cases c2 : (relax1Of data project question dm cy).isEmpty = true
        · by_cases c3 : (relax2Of data project question dm cy).isEmpty = true
          · left; simp [answerQuestion, c0, c1, c2, c3]
          · right; simp [answerQuestion, reportResult, c0, c1, c2, c3]
        · right; simp [answerQuestion, reportResult, c0, c1, c2]
      · right; simp [answerQuestion, reportResult, c0, c1]

/-- C4 (amended): `expandAcronyms` is not idempotent for the shipped
table: the key `'cash'` is itself a word of the value `'cash flow'` (and
`'lab'` expands to `'labour'`, which is again a key), so a second
expansion changes already-expanded text. -/
theorem C4_expand_not_idempotent :
    ("cash", "cash flow") ∈ ACRONYM_MAP ∧
    expandAcronyms "cashflow" = "cash flow" ∧
    expandAcronyms "cash flow" = "cash flow flow" ∧
    expandAcronyms "lab" = "labour" ∧
    expandAcronyms "labour" = "manpower (labour)" := by decide

/-- C4 counterexample: applying `expandAcronyms` twice to `"cashflow"` is
not a no-op, contradicting the claimed idempotence. -/
theorem C4_counterexample :
    expandAcronyms (expandAcronyms "cashflow") ≠ expandAcronyms "cashflow" := by decide

/-- C5 (amended): a word-level vocabulary match guarantees only that
`findClosestMatch` returns *some* entry, and then only when the word
match's length difference is within half the token length; word-level
matches compete with gate-passing fuzzy candidates on numeric distance
(length difference vs Levenshtein), so the returned entry need not be a
word-level match. -/
theorem C5_word_match_gate (input : String) (candidates : List String) (c : String)
    (hin : input ≠ "") (hc : c ∈ candidates)
    (hw : isWordLevelMatch (jsTrim (jsToLower input)) (jsTrim (jsToLower c)) = true)
    (hd : 2 * absDiff (jsTrim (jsToLower c)).length (jsTrim (jsToLower input)).length ≤
      (jsTrim (jsToLower input)).length) :
    (findClosestMatch input candidates).isSome = true := by
  by_contra hcon
  have hnone : findClosestMatch input candidates = none := by
    cases hres : findClosestMatch input candidates
    · rfl
    · rw [hres] at hcon; simp at hcon
  unfold findClosestMatch at hnone
  have hne : (input == "" || candidates.isEmpty) = false := by
    have h1 : candidates ≠ [] := List.ne_nil_of_mem hc
    have h2 : (input == "") = false := by simp [hin]
    have h3 : candidates.isEmpty = false := by
      cases candidates
      · exact absurd rfl h1
      · rfl
    rw [h2, h3]
    rfl
  rw [hne] at hnone
  simp only [Bool.false_eq_true, if_false] at hnone
  have hspec := (fcmGo_none_spec (jsTrim (jsToLower input)) candidates none hnone).2
  have := hspec c hc hw
  omega

/-- C5 counterexample: `"abcdef"` word-level-matches the token `"abc"`
(50% coverage) yet `findClosestMatch` returns none (the length difference
3 exceeds half the token length); and with `["abcdmnop", "abce"]` the
word-level match `"abcdmnop"` exists but the gate-passing fuzzy candidate
`"abce"` (edit distance 1 < length difference 4) is returned instead — so
a word-level matching entry is not always returned. -/
theorem C5_counterexample :
    isWordLevelMatch "abc" (jsTrim (jsToLower "abcdef")) = true ∧
    findClosestMatch "abc" ["abcdef"] = none ∧
    isWordLevelMatch "abcd" (jsTrim (jsToLower "abcdmnop")) = true ∧
    charSimilarityOK "abcd" (jsTrim (jsToLower "abce")) = true ∧
    levenshteinDistance "abcd" "abce" = 1 ∧
    findClosestMatch "abcd" ["abcdmnop", "abce"] = some "abce" := by decide

theorem C5_witness :
    "plan" ≠ "" ∧ "plans" ∈ ["plans"] ∧
    isWordLevelMatch (jsTrim (jsToLower "plan")) (jsTrim (jsToLower "plans")) = true ∧
    2 * absDiff (jsTrim (jsToLower "plans")).length (jsTrim (jsToLower "plan")).length ≤
      (jsTrim (jsToLower "plan")).length ∧
    (findClosestMatch "plan" ["plans"]).isSome = true :=
  ⟨by decide, by decide, by decide, by decide,
    C5_word_match_gate "plan" ["plans"] "plans" (by decide) (by decide) (by decide)
      (by decide)⟩

/-- C6 (amended): when at least one English month name or 3-letter
abbreviation occurs in the question, `parseDate` sets the month to the
lowest month in *calendar order* (january before december) whose name or
abbreviation occurs anywhere in the lower-cased text — not to the month
whose occurrence appears first in the text. -/
theorem C6_month_calendar_order (q dm : String) (i : Nat) (hi : i < 12)
    (hhit : monthHit ((jsToLower q).toList) i = true) :
    ∃ j, j < 12 ∧ monthHit ((jsToLower q).toList) j = true ∧
      (∀ k, k < j → monthHit ((jsToLower q).toList) k = false) ∧
      (parseDate q dm).month = some (toString (j + 1)) :=
  parseDate_month_min q dm i hi hhit

/-- C6 counterexample: in `"december january"` the name `"december"`
occurs first in the text (index 11 hits), yet the parsed month is `"1"`
(january), not `"12"` as the first-occurrence-wins claim demands. -/
theorem C6_counterexample :
    monthHit ((jsToLower "december january").toList) 11 = true ∧
    monthHit ((jsToLower "december january").toList) 0 = true ∧
    (parseDate "december january" "6").month = some "1" := by decide

theorem C6_witness :
    (2 < 12 ∧ monthHit ((jsToLower "march 2025").toList) 2 = true) ∧
    ∃ j, j < 12 ∧ monthHit ((jsToLower "march 2025").toList) j = true ∧
      (∀ k, k < j → monthHit ((jsToLower "march 2025").toList) k = false) ∧
      (parseDate "march 2025" "6").month = some (toString (j + 1)) :=
  ⟨⟨by decide, by decide⟩, C6_month_calendar_order "march 2025" "6" 2 (by decide) (by decide)⟩

/-- C7 (amended): a record's matchedKeywords set is duplicate-free and
consists exactly of the question tokens that substring-match the
financial-type, data-type, item-code or sheet-name fields, plus the
inferred financial type when it matches by containment (not equality),
plus the inferred data type likewise; the month (+20), year (+15), exact
inferred-type (+40/+35), common-item-code (+5) and Financial-Status (+2)
bonuses contribute score but no keywords. -/
theorem C7_matched_keywords (qW : List String) (tFT tDT : Option String)
    (parsed : ParsedQuery) (d : FinancialRow) :
    (mkCandidate qW tFT tDT parsed d).matchedKeywords.Nodup ∧
    ∀ x, x ∈ (mkCandidate qW tFT tDT parsed d).matchedKeywords ↔
      ((x ∈ qW ∧ (strIncludes (jsToLower d.Financial_Type) x = true ∨
          strIncludes (jsToLower d.Data_Type) x = true ∨
          strIncludes (jsToLower d.Item_Code) x = true ∨
          strIncludes (jsToLower d.Sheet_Name) x = true)) ∨
        (∃ ft, tFT = some ft ∧ ft ≠ "" ∧ d.Financial_Type ≠ ft ∧
          strIncludes (jsToLower d.Financial_Type) (jsToLower ft) = true ∧ x = ft) ∨
        (∃ dt, tDT = some dt ∧ dt ≠ "" ∧ d.Data_Type ≠ dt ∧
          strIncludes (jsToLower d.Data_Type) (jsToLower dt) = true ∧ x = dt)) := by
  constructor
  · exact jsDedup_nodup _
  · intro x
    show x ∈ jsDedup ((scanWords d qW).2 ++ (ftBonus tFT d).2 ++ (dtBonus tDT d).2) ↔ _
    rw [jsDedup_mem]
    simp only [List.mem_append, scanWords_snd_mem, ftBonus_snd_mem, dtBonus_snd_mem]
    exact or_assoc

/-- C7 counterexample: this record earns a nonzero score (the +20
month-equality bonus) yet its matchedKeywords set is empty, so the set is
not the union of everything that contributed a nonzero bonus. -/
theorem C7_counterexample :
    (mkCandidate ["hello"] none none { month := some "5", year := none } rowM).score = 20 ∧
    (mkCandidate ["hello"] none none { month := some "5", year := none }
      rowM).matchedKeywords = [] := by decide

theorem C7_witness :
    (mkCandidate ["gross"] none none { month := none, year := none }
      rowBP).matchedKeywords.Nodup :=
  (C7_matched_keywords ["gross"] none none { month := none, year := none } rowBP).1

/-- C8 (confirmed): when the dataset has no records for the selected
project, `answerQuestion` returns exactly the fixed message
`'No data found for this project.'` and an empty candidate list; being a
total function, it cannot raise. -/
theorem C8_empty_dataset (data : List FinancialRow) (project question dm : String)
    (cy : Nat) (h : projectDataOf data project = []) :
    answerQuestion data project question dm cy =
      { text := .fixedMsg "No data found for this project.", candidates := [] } := by
  simp [answerQuestion, h]

theorem C8_witness :
    answerQuestion [rowM] "Q" "what is the gp" "6" 2025 =
      { text := .fixedMsg "No data found for this project.", candidates := [] } :=
  C8_empty_dataset [rowM] "Q" "what is the gp" "6" 2025 (by decide)

/-- A row living on the Cash Flow sheet, used to witness that the sheet
named in the question is ignored when no user date is detected. -/
def rowCF : FinancialRow :=
  { Year := "2025", Month := "6", Sheet_Name := "Cash Flow",
    Financial_Type := "Projection as at", Data_Type := "Cash Flow",
    Item_Code := "4", Value := .num 50, projectLabel := some "P" }

/-- C9 (confirmed): `hasUserDate` is true only when the parsed year is a
non-empty string different from the current calendar year, or the parsed
month is a non-empty string different from the caller's default month;
consequently, whenever the parsed month equals the default month and the
parsed year is absent or equals the current year, the target sheet is
forced to `'Financial Status'` for every dataset and question — even one
that explicitly names another sheet. -/
theorem C9_has_user_date (question dm : String) (cy : Nat) :
    (hasUserDateOf question dm cy = true →
      (∃ y, (parsedOf question dm).year = some y ∧ y ≠ "" ∧ y ≠ toString cy) ∨
      (∃ m, (parsedOf question dm).month = some m ∧ m ≠ "" ∧ m ≠ dm)) ∧
    (∀ (data : List FinancialRow) (project : String),
      (parsedOf question dm).month = some dm →
      ((parsedOf question dm).year = none ∨
        (parsedOf question dm).year = some (toString cy)) →
      targetSheetOf data project question dm cy = some "Financial Status") := by
  constructor
  · intro h
    unfold hasUserDateOf hasUserDate at h
    rcases hy : (parsedOf question dm).year with _ | y <;>
      rcases hm : (parsedOf question dm).month with _ | m <;>
        rw [hy, hm] at h <;> simp at h
    · exact Or.inr ⟨m, rfl, h.1, h.2⟩
    · exact Or.inl ⟨y, rfl, h.1, h.2⟩
    · rcases h with h | h
      · exact Or.inl ⟨y, rfl, h.1, h.2⟩
      · exact Or.inr ⟨m, rfl, h.1, h.2⟩
  · intro data project hm hy
    have hfalse : hasUserDateOf question dm cy = false := by
      unfold hasUserDateOf hasUserDate
      rw [hm]
      rcases hy with hy | hy <;> rw [hy] <;> simp
    unfold targetSheetOf inferSheet
    rw [hfalse]
    rfl

theorem C9_witness :
    parsedOf "cash flow" "6" = { month := some "6", year := none } ∧
    targetSheetOf [rowCF] "P" "cash flow" "6" 2025 = some "Financial Status" :=
  ⟨by decide,
    (C9_has_user_date "cash flow" "6" 2025).2 [rowCF] "P" (by decide) (Or.inl (by decide))⟩

/-- C10 (confirmed): candidate scoring never reads record values — two
records that agree on everything but `Value` receive the same score and
matchedKeywords, and two datasets that agree row-by-row on everything but
`Value` produce candidate lists that agree on every field except the
carried value (same scores, keywords, attribute fields, ids and order).
-/
theorem C10_value_independence :
    (∀ (qW : List String) (tFT tDT : Option String) (parsed : ParsedQuery)
        (r₁ r₂ : FinancialRow), stripRow r₁ = stripRow r₂ →
      (mkCandidate qW tFT tDT parsed r₁).score = (mkCandidate qW tFT tDT parsed r₂).score ∧
      (mkCandidate qW tFT tDT parsed r₁).matchedKeywords =
        (mkCandidate qW tFT tDT parsed r₂).matchedKeywords) ∧
    (∀ (d₁ d₂ : List FinancialRow) (project question dm : String) (cy : Nat),
      d₁.map stripRow = d₂.map stripRow →
      (answerQuestion d₁ project question dm cy).candidates.map stripCand =
        (answerQuestion d₂ project question dm cy).candidates.map stripCand) := by
  constructor
  · intro qW tFT tDT parsed r₁ r₂ h
    have h1 : stripCand (mkCandidate qW tFT tDT parsed r₁) =
        stripCand (mkCandidate qW tFT tDT parsed r₂) := by
      rw [mkCandidate_strip qW tFT tDT parsed r₁, mkCandidate_strip qW tFT tDT parsed r₂, h]
    have hk : ∀ c : Candidate, (stripCand c).matchedKeywords = c.matchedKeywords :=
      fun _ => rfl
    exact ⟨by rw [← stripCand_score, h1, stripCand_score],
      by rw [← hk, h1, hk]⟩
  · exact answerQuestion_strip

/-- The Business-Plan record with a different value, for the
value-independence witness. -/
def rowBP2 : FinancialRow := { rowBP with Value := .num 999 }

theorem C10_witness :
    [rowBP].map stripRow = [rowBP2].map stripRow ∧
    (answerQuestion [rowBP] "P" "what is the gp" "6" 2025).candidates.map stripCand =
      (answerQuestion [rowBP2] "P" "what is the gp" "6" 2025).candidates.map stripCand :=
  ⟨by decide,
    C10_value_independence.2 [rowBP] [rowBP2] "P" "what is the gp" "6" 2025 (by decide)⟩
